import Mathlib

/-!
Verification development for the FlyzexBot persistence engine
(`flyzexbot/services/storage.py`).

The Python module is shallowly embedded: dataclasses become structures,
Python `dict`s become insertion-ordered association lists with `dict`
semantics (update-in-place keeps the key's position, new keys append),
JSON payloads become an inductive `JValue`, timestamps become explicit
epoch arithmetic, and the `async` mutators become pure state transformers
that take the ambient instant (`datetime.now(LOCAL_TIMEZONE)`) and the
configured timezone offset as explicit arguments.
-/

/-! ## Association lists with Python `dict` semantics -/

/-- `d.get(key)` — first binding of `key`, if any. -/
def dget {K V : Type} [DecidableEq K] : List (K × V) → K → Option V
  | [], _ => none
  | (k, v) :: rest, key => if k = key then some v else dget rest key

/-- `d.get(key, dflt)`. -/
def dgetD {K V : Type} [DecidableEq K] (d : List (K × V)) (key : K) (dflt : V) : V :=
  (dget d key).getD dflt

/-- `d[key] = val` — replace in place, keeping the key's position, else append. -/
def dinsert {K V : Type} [DecidableEq K] : List (K × V) → K → V → List (K × V)
  | [], key, val => [(key, val)]
  | (k, v) :: rest, key, val =>
    if k = key then (k, val) :: rest else (k, v) :: dinsert rest key val

/-- `d.pop(key, None)` — drop the first binding of `key`. -/
def dpop {K V : Type} [DecidableEq K] : List (K × V) → K → List (K × V)
  | [], _ => []
  | (k, v) :: rest, key => if k = key then rest else (k, v) :: dpop rest key

/-- `key in d`. -/
def dmem {K V : Type} [DecidableEq K] (d : List (K × V)) (key : K) : Bool :=
  (dget d key).isSome

/-- `d.setdefault(key, val)` — insert only when the key is absent. -/
def dsetdefault {K V : Type} [DecidableEq K] (d : List (K × V)) (key : K) (val : V) :
    List (K × V) :=
  match dget d key with
  | some _ => d
  | none => d ++ [(key, val)]

/-! ## Decimal rendering and parsing (`str(i)` / `int(s)`) -/

def digitChar (n : Nat) : Char := Char.ofNat (48 + n % 10)

def isDigitCh (c : Char) : Bool := 48 ≤ c.toNat && c.toNat ≤ 57

def natDigitsFuel : Nat → Nat → List Char
  | 0, _ => []
  | fuel + 1, n =>
    if n < 10 then [digitChar n]
    else natDigitsFuel fuel (n / 10) ++ [digitChar (n % 10)]

/-- The decimal digits of `n`, most significant first (fuel-based structural
recursion so that the kernel can evaluate it; `n + 1` units of fuel always
suffice because each step divides by 10). -/
def natDigits (n : Nat) : List Char := natDigitsFuel (n + 1) n

theorem natDigitsFuel_fuel_irrel : ∀ n fuel, n < fuel →
    natDigitsFuel fuel n = natDigitsFuel (n + 1) n := by
  intro n
  induction n using Nat.strong_induction_on with
  | _ n ih =>
    intro fuel hf
    match fuel, hf with
    | f + 1, hf =>
      by_cases h : n < 10
      · simp [natDigitsFuel, h]
      · have hdiv : n / 10 < n := Nat.div_lt_self (by omega) (by norm_num)
        simp only [natDigitsFuel, if_neg h]
        congr 1
        rw [ih (n / 10) hdiv f (by omega), ih (n / 10) hdiv n hdiv]

def natStr (n : Nat) : String := ⟨natDigits n⟩

/-- `str(i)` for a Python int. -/
def intStr (i : Int) : String :=
  if i < 0 then "-" ++ natStr i.natAbs else natStr i.natAbs

def charVal (c : Char) : Nat := c.toNat - 48

def digitsVal (l : List Char) : Nat := l.foldl (fun acc c => acc * 10 + charVal c) 0

/-- `int(s)` on a canonical decimal string (an optional minus sign followed by digits).
Python's `int` also tolerates surrounding whitespace, a plus sign and underscores;
those shapes never occur in payloads produced by `to_dict`. -/
def strToIntAux : List Char → Option Int
  | [] => none
  | c :: rest =>
    if c = '-' then
      if rest ≠ [] && rest.all isDigitCh then some (-(digitsVal rest : Int)) else none
    else if (c :: rest).all isDigitCh then some (digitsVal (c :: rest) : Int) else none

def strToInt (s : String) : Option Int := strToIntAux s.data

/-- Left-pad the decimal rendering of `n` with zeros to width `k` (`"%0*d"`). -/
def padChars (k n : Nat) : List Char :=
  List.replicate (k - (natDigits n).length) '0' ++ natDigits n

def padNum (k n : Nat) : String := ⟨padChars k n⟩

/-! ## Python string helpers -/

/-- The characters `str.strip()` removes. -/
def isPySpace (c : Char) : Bool :=
  c = ' ' || c = '\t' || c = '\n' || c = '\x0d' || c = '\x0b' || c = '\x0c'

def stripChars (l : List Char) : List Char :=
  ((l.dropWhile isPySpace).reverse.dropWhile isPySpace).reverse

/-- `s.strip()`. -/
def pyStrip (s : String) : String := ⟨stripChars s.data⟩

/-- `s.lstrip("@")`. -/
def pyLstripAt (s : String) : String := ⟨s.data.dropWhile (· = '@')⟩

/-- `s.upper()` (ASCII; the timezone specs this is applied to are ASCII). -/
def pyUpper (s : String) : String := ⟨s.data.map Char.toUpper⟩

/-! ## JSON-like payload values

`StorageState.to_dict` produces, and `StorageState.from_dict` consumes, plain
Python data (dicts, lists, strings, ints, None).  Objects are insertion-ordered
key/value lists, as Python dicts are. -/

inductive JValue : Type where
  | jnull : JValue
  | jbool : Bool → JValue
  | jint : Int → JValue
  | jstr : String → JValue
  | jarr : List JValue → JValue
  | jobj : List (String × JValue) → JValue
  deriving Repr

mutual
def JValue.beq : JValue → JValue → Bool
  | .jnull, .jnull => true
  | .jbool a, .jbool b => a == b
  | .jint a, .jint b => a == b
  | .jstr a, .jstr b => a == b
  | .jarr a, .jarr b => JValue.beqList a b
  | .jobj a, .jobj b => JValue.beqObj a b
  | _, _ => false
def JValue.beqList : List JValue → List JValue → Bool
  | [], [] => true
  | x :: xs, y :: ys => JValue.beq x y && JValue.beqList xs ys
  | _, _ => false
def JValue.beqObj : List (String × JValue) → List (String × JValue) → Bool
  | [], [] => true
  | (k, v) :: xs, (l, w) :: ys => k == l && JValue.beq v w && JValue.beqObj xs ys
  | _, _ => false
end

theorem JValue.beq_iff : ∀ a b, (JValue.beq a b = true) ↔ a = b := by
  apply JValue.beq.induct
    (motive_1 := fun a b => (JValue.beq a b = true) ↔ a = b)
    (motive_2 := fun xs ys => (JValue.beqObj xs ys = true) ↔ xs = ys)
    (motive_3 := fun xs ys => (JValue.beqList xs ys = true) ↔ xs = ys)
  case case7 =>
    intro t x h1 h2 h3 h4 h5 h6
    cases t <;> cases x <;>
      first
        | exact (h1 rfl rfl).elim
        | exact (h2 _ _ rfl rfl).elim
        | exact (h3 _ _ rfl rfl).elim
        | exact (h4 _ _ rfl rfl).elim
        | exact (h5 _ _ rfl rfl).elim
        | exact (h6 _ _ rfl rfl).elim
        | simp [JValue.beq]
  case case10 =>
    intro t x h1 h2
    cases t <;> cases x <;>
      first
        | exact (h1 rfl rfl).elim
        | exact (h2 _ _ _ _ rfl rfl).elim
        | simp [JValue.beqList]
  case case13 =>
    intro t x h1 h2
    cases t <;> cases x <;>
      first
        | exact (h1 rfl rfl).elim
        | exact (h2 _ _ _ _ _ _ rfl rfl).elim
        | simp [JValue.beqObj]
  all_goals intros
  all_goals simp_all [JValue.beq, JValue.beqList, JValue.beqObj]

instance : DecidableEq JValue := fun a b =>
  decidable_of_iff _ (JValue.beq_iff a b)

/-- Python truthiness of a decoded JSON value. -/
def JValue.truthy : JValue → Bool
  | .jnull => false
  | .jbool b => b
  | .jint n => n ≠ 0
  | .jstr s => s ≠ ""
  | .jarr l => l ≠ []
  | .jobj l => l ≠ []

/-- `str(v)` on a decoded JSON value.  Only strings and ints flow through
`str(...)` in the storage module's payload handling. -/
def JValue.pyStr : JValue → String
  | .jstr s => s
  | .jint n => intStr n
  | .jbool b => if b then "True" else "False"
  | .jnull => "None"
  | .jarr _ => "<list>"
  | .jobj _ => "<dict>"

/-! ## Timestamp service

`datetime` instants are modeled at second granularity.  A `PyDateTime`'s
`naive` field encodes the instant's *wall-clock components* as seconds
relative to 1970-01-01 00:00:00 of that same wall clock; `tz` is the
attached fixed offset in minutes (`None` for a naive datetime).  This
mirrors how the storage module uses `datetime`: fixed-offset timezones
only, no daylight-saving rules. -/

structure PyDateTime where
  naive : Int
  tz : Option Int
  deriving DecidableEq, Repr

/-- Days-from-epoch to (year, month, day), Gregorian (Howard Hinnant's
`civil_from_days`, floor-division variant). -/
def civilFromDays (z : Int) : Int × Nat × Nat :=
  let z' := z + 719468
  let era := z'.fdiv 146097
  let doe := (z' - era * 146097).toNat
  let yoe := (doe - doe / 1460 + doe / 36524 - doe / 146096) / 365
  let doy := doe - (365 * yoe + yoe / 4 - yoe / 100)
  let mp := (5 * doy + 2) / 153
  let d := doy - (153 * mp + 2) / 5 + 1
  let m := if mp < 10 then mp + 3 else mp - 9
  (era * 400 + yoe + (if m ≤ 2 then 1 else 0), m, d)

/-- Inverse of `civilFromDays` (`days_from_civil`). -/
def daysFromCivil (y : Int) (m d : Nat) : Int :=
  let y' := y - (if m ≤ 2 then 1 else 0)
  let era := y'.fdiv 400
  let yoe := (y' - era * 400).toNat
  let doy := (153 * (if m > 2 then m - 3 else m + 9) + 2) / 5 + d - 1
  let doe := yoe * 365 + yoe / 4 - yoe / 100 + doy
  era * 146097 + (doe : Int) - 719468

/-- Wall-clock components (y, m, d, h, min, s) of an instant's naive seconds. -/
def epochToCivil (sec : Int) : Int × Nat × Nat × Nat × Nat × Nat :=
  let days := sec.fdiv 86400
  let sod := (sec - days * 86400).toNat
  let (y, m, d) := civilFromDays days
  (y, m, d, sod / 3600, sod % 3600 / 60, sod % 60)

/-- `moment.strftime("%Y/%m/%d · %H:%M:%S")`. -/
def strftimeDisplay (dt : PyDateTime) : String :=
  let (y, mo, da, h, mi, s) := epochToCivil dt.naive
  padNum 4 y.toNat ++ "/" ++ padNum 2 mo ++ "/" ++ padNum 2 da ++ " · " ++
    padNum 2 h ++ ":" ++ padNum 2 mi ++ ":" ++ padNum 2 s

/-- `dt.astimezone(timezone(timedelta(minutes=target)))` for an aware datetime. -/
def pyAstimezone (target : Int) (dt : PyDateTime) : PyDateTime :=
  match dt.tz with
  | none => dt
  | some off => { naive := dt.naive - off * 60 + target * 60, tz := some target }

/-- `format_timestamp(dt)` with the module's `LOCAL_TIMEZONE` offset (in
minutes) passed explicitly.  The `dt or datetime.now(LOCAL_TIMEZONE)`
default is modeled by the caller always supplying the instant. -/
def format_timestamp (localOff : Int) (dt : PyDateTime) : String :=
  let moment := if dt.tz = none then { dt with tz := some localOff } else dt
  let moment := pyAstimezone localOff moment
  let datePart := strftimeDisplay moment
  -- `offset = moment.utcoffset()`: after `astimezone` this is the local offset
  if localOff = 0 then datePart ++ " UTC"
  else
    let sign := if 0 ≤ localOff then "+" else "-"
    let hours := localOff.natAbs / 60
    let minutes := localOff.natAbs % 60
    datePart ++ " UTC" ++ sign ++ padNum 2 hours ++ ":" ++ padNum 2 minutes

/-- `dt.isoformat()` for an aware datetime at second granularity. -/
def pyIsoformat (dt : PyDateTime) : String :=
  let (y, mo, da, h, mi, s) := epochToCivil dt.naive
  let datePart := padNum 4 y.toNat ++ "-" ++ padNum 2 mo ++ "-" ++ padNum 2 da ++ "T" ++
    padNum 2 h ++ ":" ++ padNum 2 mi ++ ":" ++ padNum 2 s
  match dt.tz with
  | none => datePart
  | some off =>
    let sign := if 0 ≤ off then "+" else "-"
    datePart ++ sign ++ padNum 2 (off.natAbs / 60) ++ ":" ++ padNum 2 (off.natAbs % 60)

/-- The offset (in minutes) accepted by `configure_timezone` for a given spec,
if any: `"UTC"` or `"UTC±HH:MM"`/`"UTC±H:MM"` with hours ≤ 23 and minutes ≤ 59
(after strip/upper).  `none` means the spec is rejected and the previous
offset is preserved. -/
def parseTzHM : List Char → Option (Nat × Nat)
  | [a, ':', b, c] =>
    if isDigitCh a && isDigitCh b && isDigitCh c then
      some (charVal a, charVal b * 10 + charVal c)
    else none
  | [a, a2, ':', b, c] =>
    if isDigitCh a && isDigitCh a2 && isDigitCh b && isDigitCh c then
      some (charVal a * 10 + charVal a2, charVal b * 10 + charVal c)
    else none
  | _ => none

def parseTzBody : List Char → Option Int
  | 'U' :: 'T' :: 'C' :: sign :: rest =>
    if sign = '+' ∨ sign = '-' then
      match parseTzHM rest with
      | none => none
      | some (hours, minutes) =>
        if hours > 23 ∨ minutes > 59 then none
        else
          let total : Int := hours * 60 + minutes
          some (if sign = '-' then -total else total)
    else none
  | _ => none

def parseTzOffset (tzSpec : Option String) : Option Int :=
  match tzSpec with
  | none => none
  | some raw =>
    if raw = "" then none  -- `if not tz_spec: return`
    else if pyUpper (pyStrip raw) = "UTC" then some 0
    else
      -- `re.fullmatch(r"UTC([+-])(\d{1,2}):(\d{2})", spec)`
      parseTzBody (pyUpper (pyStrip raw)).data

/-- `configure_timezone(tz_spec)`: the module-global offset after the call,
given the offset `current` before it. -/
def configure_timezone (tzSpec : Option String) (current : Int) : Int :=
  (parseTzOffset tzSpec).getD current

/-- Model of `datetime.fromisoformat` restricted to the shapes that can reach
it from this module: `YYYY-MM-DD`, optionally followed by a one-character
separator and `HH:MM:SS`, optionally followed by a `±HH:MM` offset.  Every
string the storage module feeds it either is of this shape (legacy ISO data)
or fails to parse — in particular every `format_timestamp` output fails,
because its fifth character is never `'-'`. -/
def isoParse (cs : List Char) : Option PyDateTime :=
  match cs with
  | y1 :: y2 :: y3 :: y4 :: sep :: rest =>
    if sep = '-' ∧ isDigitCh y1 ∧ isDigitCh y2 ∧ isDigitCh y3 ∧ isDigitCh y4 then
      let y : Int := (digitsVal [y1, y2, y3, y4] : Int)
      match rest with
      | [m1, m2, '-', d1, d2] =>
        if isDigitCh m1 ∧ isDigitCh m2 ∧ isDigitCh d1 ∧ isDigitCh d2 then
          let mo := charVal m1 * 10 + charVal m2
          let da := charVal d1 * 10 + charVal d2
          if 1 ≤ mo ∧ mo ≤ 12 ∧ 1 ≤ da ∧ da ≤ 31 then
            some { naive := daysFromCivil y mo da * 86400, tz := none }
          else none
        else none
      | m1 :: m2 :: '-' :: d1 :: d2 :: _ :: h1 :: h2 :: ':' :: n1 :: n2 :: ':' :: s1 :: s2 :: tail =>
        if isDigitCh m1 ∧ isDigitCh m2 ∧ isDigitCh d1 ∧ isDigitCh d2 ∧ isDigitCh h1 ∧
            isDigitCh h2 ∧ isDigitCh n1 ∧ isDigitCh n2 ∧ isDigitCh s1 ∧ isDigitCh s2 then
          let mo := charVal m1 * 10 + charVal m2
          let da := charVal d1 * 10 + charVal d2
          let hh := charVal h1 * 10 + charVal h2
          let mi := charVal n1 * 10 + charVal n2
          let ss := charVal s1 * 10 + charVal s2
          if 1 ≤ mo ∧ mo ≤ 12 ∧ 1 ≤ da ∧ da ≤ 31 ∧ hh ≤ 23 ∧ mi ≤ 59 ∧ ss ≤ 59 then
            let naive := daysFromCivil y mo da * 86400 + (hh * 3600 + mi * 60 + ss : Nat)
            match tail with
            | [] => some { naive := naive, tz := none }
            | [sg, o1, o2, ':', p1, p2] =>
              if (sg = '+' ∨ sg = '-') ∧ isDigitCh o1 ∧ isDigitCh o2 ∧ isDigitCh p1 ∧
                  isDigitCh p2 then
                let om : Int := (charVal o1 * 10 + charVal o2) * 60 + (charVal p1 * 10 + charVal p2)
                some { naive := naive, tz := some (if sg = '-' then -om else om) }
              else none
            | _ => none
          else none
        else none
      | _ => none
    else none
  | _ => none

/-- `normalize_timestamp(value)`: re-render a legacy ISO timestamp via
`format_timestamp`; return unparseable input unchanged. -/
def normalize_timestamp (localOff : Int) (value : String) : String :=
  if value = "" then ""
  else
    match isoParse value.data with
    | none => value
    | some parsed =>
      let parsed := if parsed.tz = none then { parsed with tz := some localOff } else parsed
      format_timestamp localOff parsed

/-! ## State model (`ApplicationResponse`, `Application`,
`ApplicationHistoryEntry`, `StorageState`) -/

structure ApplicationResponse where
  question_id : String
  question : String
  answer : String
  deriving DecidableEq, Repr

structure Application where
  user_id : Int
  full_name : String
  username : Option String
  answer : Option String
  created_at : String
  language_code : Option String
  responses : List ApplicationResponse
  deriving DecidableEq, Repr

structure ApplicationHistoryEntry where
  status : String
  updated_at : String
  note : Option String
  language_code : Option String
  deriving DecidableEq, Repr

/-- The aggregate state.  Python `dict`s become insertion-ordered association
lists; `xp_profiles` values and cup records stay heterogeneous (`JValue`)
exactly as the dynamically-typed source keeps them. -/
structure StorageState where
  admins : List Int := []
  admin_profiles : List (Int × List (String × Option String)) := []
  applications : List (Int × Application) := []
  application_history : List (Int × ApplicationHistoryEntry) := []
  xp : List (String × List (String × Int)) := []
  xp_profiles : List (String × List (String × JValue)) := []
  cups : List (String × List (List (String × JValue))) := []
  application_questions : List (String × List (String × String)) := []
  deriving DecidableEq, Repr

def StorageState.empty : StorageState := {}

/-! ### `StorageState.to_dict` -/

/-- An optional string field as it appears in `vars(...)` output. -/
def optJ : Option String → JValue
  | none => .jnull
  | some s => .jstr s

/-- `vars(response)`. -/
def responseToJ (r : ApplicationResponse) : List (String × JValue) :=
  [("question_id", .jstr r.question_id), ("question", .jstr r.question),
   ("answer", .jstr r.answer)]

/-- `{**vars(v), "responses": [vars(r) for r in v.responses]}`. -/
def applicationToJ (a : Application) : List (String × JValue) :=
  [("user_id", .jint a.user_id), ("full_name", .jstr a.full_name),
   ("username", optJ a.username), ("answer", optJ a.answer),
   ("created_at", .jstr a.created_at), ("language_code", optJ a.language_code),
   ("responses", .jarr (a.responses.map (fun r => .jobj (responseToJ r))))]

/-- `vars(v)` for a history entry. -/
def historyEntryToJ (e : ApplicationHistoryEntry) : List (String × JValue) :=
  [("status", .jstr e.status), ("updated_at", .jstr e.updated_at),
   ("note", optJ e.note), ("language_code", optJ e.language_code)]

/-- `{key: value for key, value in profile.items() if value is not None}`. -/
def adminProfileToJ (prof : List (String × Option String)) : List (String × JValue) :=
  prof.filterMap (fun kv => kv.2.map (fun s => (kv.1, JValue.jstr s)))

/-- `{key: value for key, value in profile.items() if value not in (None, "")}`. -/
def xpProfileToJ (prof : List (String × JValue)) : List (String × JValue) :=
  prof.filter (fun kv => kv.2 ≠ .jnull && kv.2 ≠ .jstr "")

def toDictAdminProfiles (l : List (Int × List (String × Option String))) :
    List (String × JValue) :=
  l.map (fun e => (intStr e.1, .jobj (adminProfileToJ e.2)))

def toDictApplications (l : List (Int × Application)) : List (String × JValue) :=
  l.map (fun e => (intStr e.1, .jobj (applicationToJ e.2)))

def toDictHistory (l : List (Int × ApplicationHistoryEntry)) : List (String × JValue) :=
  l.map (fun e => (intStr e.1, .jobj (historyEntryToJ e.2)))

def toDictXp (l : List (String × List (String × Int))) : List (String × JValue) :=
  l.map (fun e => (e.1, .jobj (e.2.map (fun kv => (kv.1, JValue.jint kv.2)))))

def toDictXpProfiles (l : List (String × List (String × JValue))) :
    List (String × JValue) :=
  l.map (fun e => (e.1, .jobj (xpProfileToJ e.2)))

def toDictCups (l : List (String × List (List (String × JValue)))) :
    List (String × JValue) :=
  l.map (fun e => (e.1, .jarr (e.2.map JValue.jobj)))

def toDictQuestions (l : List (String × List (String × String))) :
    List (String × JValue) :=
  l.map (fun e => (e.1, .jobj (e.2.map (fun kv => (kv.1, JValue.jstr kv.2)))))

/-- `StorageState.to_dict`. -/
def StorageState.to_dict (s : StorageState) : JValue :=
  .jobj [
    ("admins", .jarr (s.admins.map JValue.jint)),
    ("admin_profiles", .jobj (toDictAdminProfiles s.admin_profiles)),
    ("applications", .jobj (toDictApplications s.applications)),
    ("application_history", .jobj (toDictHistory s.application_history)),
    ("xp", .jobj (toDictXp s.xp)),
    ("xp_profiles", .jobj (toDictXpProfiles s.xp_profiles)),
    ("cups", .jobj (toDictCups s.cups)),
    ("application_questions", .jobj (toDictQuestions s.application_questions))]

/-! ### `StorageState.from_dict`

Python exceptions escaping `from_dict` (a structurally invalid payload) are
modeled with `Except.error`; the message records which `from_dict` step
raised.  Where the typed embedding is narrower than Python's dynamic code —
e.g. a response field holding a non-string — the parser rejects values the
dynamic code would have stored as-is; such values never occur in payloads
produced by `to_dict` or by the mutation API. -/

/-- Effectful map over a list (explicit structural recursion; Python's
comprehensions evaluate elements left to right and stop at the first
exception). -/
def mapME {α β : Type} (f : α → Except String β) : List α → Except String (List β)
  | [] => .ok []
  | x :: xs => do
    let y ← f x
    let ys ← mapME f xs
    .ok (y :: ys)

/-- One element of `value.get("responses", [])`: skipped (`none`) when the
required keys are missing, otherwise `ApplicationResponse(**response)`. -/
def parseResponse (v : JValue) : Except String (Option ApplicationResponse) :=
  match v with
  | .jobj fields =>
    if (dget fields "question_id").isSome && (dget fields "question").isSome &&
        (dget fields "answer").isSome then
      if fields.all (fun kv =>
          kv.1 = "question_id" || kv.1 = "question" || kv.1 = "answer") then
        match dget fields "question_id", dget fields "question", dget fields "answer" with
        | some (.jstr qid), some (.jstr q), some (.jstr a) => .ok (some ⟨qid, q, a⟩)
        | _, _, _ => .error "response field is not a string"
      else .error "TypeError: unexpected keyword argument"
    else .ok none
  | _ => .error "AttributeError: response has no keys()"

def collectResponses : List JValue → Except String (List ApplicationResponse)
  | [] => .ok []
  | v :: rest => do
    let r? ← parseResponse v
    let rs ← collectResponses rest
    match r? with
    | some r => .ok (r :: rs)
    | none => .ok rs

/-- An optional-string field read with `.get(key)`. -/
def parseOptStr (fields : List (String × JValue)) (key : String) :
    Except String (Option String) :=
  match dget fields key with
  | none => .ok none
  | some .jnull => .ok none
  | some (.jstr s) => .ok (some s)
  | some _ => .error "optional field is not a string"

/-- A string field read with `.get(key, "")`. -/
def parseStrD (fields : List (String × JValue)) (key : String) :
    Except String String :=
  match dget fields key with
  | none => .ok ""
  | some (.jstr s) => .ok s
  | some _ => .error "field is not a string"

/-- `int(key)` on a payload map key. -/
def parseIntKey (key : String) : Except String Int :=
  match strToInt key with
  | some i => .ok i
  | none => .error "ValueError: invalid literal for int()"

def parseApplicationEntry (localOff : Int) (key : String) (v : JValue) :
    Except String (Int × Application) :=
  match v with
  | .jobj fields => do
    let respList ←
      match dgetD fields "responses" (.jarr []) with
      | .jarr l => Except.ok l
      | _ => Except.error "responses is not a list"
    let resps ← collectResponses respList
    let uid ←
      match dget fields "user_id" with
      | some (.jint n) => Except.ok n
      | some _ => Except.error "user_id is not an int"
      | none => Except.error "KeyError: user_id"
    let fullName ← parseStrD fields "full_name"
    let username ← parseOptStr fields "username"
    let answer ← parseOptStr fields "answer"
    let createdRaw ← parseStrD fields "created_at"
    let languageCode ← parseOptStr fields "language_code"
    let k ← parseIntKey key
    .ok (k, { user_id := uid, full_name := fullName, username := username,
              answer := answer,
              created_at := normalize_timestamp localOff createdRaw,
              language_code := languageCode, responses := resps })
  | _ => .error "AttributeError: application entry has no get"

def parseApplications (localOff : Int) (v : JValue) :
    Except String (List (Int × Application)) :=
  match v with
  | .jobj entries => mapME (fun e => parseApplicationEntry localOff e.1 e.2) entries
  | _ => .error "AttributeError: applications has no items"

def parseHistoryEntry (localOff : Int) (key : String) (v : JValue) :
    Except String (Int × ApplicationHistoryEntry) :=
  match v with
  | .jobj fields => do
    let k ← parseIntKey key
    let status ← parseStrD fields "status"
    let updatedRaw ← parseStrD fields "updated_at"
    let note ← parseOptStr fields "note"
    let languageCode ← parseOptStr fields "language_code"
    .ok (k, { status := status,
              updated_at := normalize_timestamp localOff updatedRaw,
              note := note, language_code := languageCode })
  | _ => .error "AttributeError: history entry has no get"

def parseHistory (localOff : Int) (v : JValue) :
    Except String (List (Int × ApplicationHistoryEntry)) :=
  match v with
  | .jobj entries => mapME (fun e => parseHistoryEntry localOff e.1 e.2) entries
  | _ => .error "AttributeError: application_history has no items"

/-- `list(payload.get("admins", []))` (admin ids are ints in every payload
the engine writes or the API builds). -/
def parseAdmins (v : JValue) : Except String (List Int) :=
  match v with
  | .jarr l =>
    mapME (fun x =>
      match x with
      | .jint n => Except.ok n
      | _ => Except.error "admin id is not an int") l
  | _ => .error "TypeError: admins is not iterable"

/-- `{key: value for ... in (profile or {}).items() if isinstance(value, str) and value}`. -/
def parseAdminProfile (v : JValue) : Except String (List (String × Option String)) :=
  if !v.truthy then .ok []
  else
    match v with
    | .jobj fields =>
      .ok (fields.filterMap (fun kv =>
        match kv.2 with
        | .jstr s => if s ≠ "" then some (kv.1, some s) else none
        | _ => none))
    | _ => .error "AttributeError: profile has no items"

def parseAdminProfiles (v : JValue) :
    Except String (List (Int × List (String × Option String))) :=
  match v with
  | .jobj entries =>
    mapME (fun e => do
      let uid ← parseIntKey e.1
      let prof ← parseAdminProfile e.2
      Except.ok (uid, prof)) entries
  | _ => .error "AttributeError: admin_profiles has no items"

/-- `{user: int(score) for user, score in v.items()}`. -/
def parseXpChat (v : JValue) : Except String (List (String × Int)) :=
  match v with
  | .jobj scores =>
    mapME (fun kv =>
      match kv.2 with
      | .jint n => Except.ok (kv.1, n)
      | .jstr s =>
        match strToInt s with
        | some n => Except.ok (kv.1, n)
        | none => Except.error "ValueError: int()"
      | _ => Except.error "int() argument") scores
  | _ => .error "AttributeError: chat scores have no items"

def parseXp (v : JValue) : Except String (List (String × List (String × Int))) :=
  match v with
  | .jobj entries =>
    mapME (fun e => do
      let scores ← parseXpChat e.2
      Except.ok (e.1, scores)) entries
  | _ => .error "AttributeError: xp has no items"

/-- `[str(chat) for chat in profile.get("chats", []) if chat]`. -/
def xpProfileChats (p : List (String × JValue)) : Except String (List JValue) :=
  match dgetD p "chats" (.jarr []) with
  | .jarr l => .ok ((l.filter JValue.truthy).map (fun c => JValue.jstr c.pyStr))
  | _ => .error "chats is not a list"

/-- The five-key profile `from_dict` rebuilds for one xp profile. -/
def xpProfileOne (p : List (String × JValue)) : Except String (List (String × JValue)) := do
  let chats ← xpProfileChats p
  .ok [("username", dgetD p "username" .jnull),
       ("full_name", dgetD p "full_name" .jnull),
       ("updated_at", dgetD p "updated_at" .jnull),
       ("last_chat", dgetD p "last_chat" .jnull),
       ("chats", .jarr chats)]

def parseXpProfiles (v : JValue) :
    Except String (List (String × List (String × JValue))) :=
  match v with
  | .jobj entries =>
    -- `if isinstance(profile, dict)` drops non-dict values silently
    mapME (fun e => do
        let prof ← xpProfileOne e.2
        Except.ok (e.1, prof))
      (entries.filterMap (fun e =>
        match e.2 with
        | .jobj p => some (e.1, p)
        | _ => none))
  | _ => .error "AttributeError: xp_profiles has no items"

/-- `{**entry, "created_at": normalize_timestamp(entry.get("created_at", ""))}`. -/
def parseCup (localOff : Int) (v : JValue) :
    Except String (List (String × JValue)) :=
  match v with
  | .jobj cup =>
    match dgetD cup "created_at" (.jstr "") with
    | .jstr s => .ok (dinsert cup "created_at" (.jstr (normalize_timestamp localOff s)))
    | _ => .error "TypeError: fromisoformat argument"
  | _ => .error "AttributeError: cup entry has no get"

def parseCups (localOff : Int) (v : JValue) :
    Except String (List (String × List (List (String × JValue)))) :=
  match v with
  | .jobj entries =>
    mapME (fun e =>
      match e.2 with
      | .jarr cupList => do
        let cups ← mapME (parseCup localOff) cupList
        Except.ok (e.1, cups)
      | _ => Except.error "TypeError: cup list is not iterable") entries
  | _ => .error "AttributeError: cups has no items"

/-- One language bucket: keep string prompts whose `strip()` is non-empty. -/
def parseQuestionBucket (v : JValue) : Except String (List (String × String)) :=
  if !v.truthy then .ok []
  else
    match v with
    | .jobj fields =>
      .ok (fields.filterMap (fun kv =>
        match kv.2 with
        | .jstr p => if pyStrip p ≠ "" then some (kv.1, p) else none
        | _ => none))
    | _ => .error "AttributeError: questions has no items"

def parseQuestions (v : JValue) :
    Except String (List (String × List (String × String))) :=
  match v with
  | .jobj entries =>
    mapME (fun e => do
      let bucket ← parseQuestionBucket e.2
      Except.ok (e.1, bucket)) entries
  | _ => .error "AttributeError: application_questions has no items"

/-- `StorageState.from_dict(payload)`.  A non-dict payload raises
(`payload.get` on a list/str/None has no such attribute). -/
def StorageState.from_dict (localOff : Int) (payload : JValue) :
    Except String StorageState :=
  match payload with
  | .jobj fields => do
    let applications ← parseApplications localOff (dgetD fields "applications" (.jobj []))
    let history ← parseHistory localOff (dgetD fields "application_history" (.jobj []))
    let admins ← parseAdmins (dgetD fields "admins" (.jarr []))
    let adminProfiles ← parseAdminProfiles (dgetD fields "admin_profiles" (.jobj []))
    let xp ← parseXp (dgetD fields "xp" (.jobj []))
    let xpProfiles ← parseXpProfiles (dgetD fields "xp_profiles" (.jobj []))
    let cups ← parseCups localOff (dgetD fields "cups" (.jobj []))
    let questions ← parseQuestions (dgetD fields "application_questions" (.jobj []))
    .ok { admins := admins, admin_profiles := adminProfiles,
          applications := applications, application_history := history,
          xp := xp, xp_profiles := xpProfiles, cups := cups,
          application_questions := questions }
  | _ => .error "AttributeError: payload has no get"

/-! ## Mutation operations

Each `async` mutator becomes a pure state transformer.  The ambient
`datetime.now(LOCAL_TIMEZONE)` instant and the configured offset are explicit
arguments.  A returned `Bool` that the source exposes is returned as-is;
`pop_application` additionally returns whether `save()` was invoked. -/

def pyLower (s : String) : String := ⟨s.data.map Char.toLower⟩

/-- Username normalization shared by `add_admin` and `add_xp`: strip, then
`lstrip("@") or None`.  An all-`@` or blank username normalizes to `None`
(Python keeps a falsy `""` in one branch; it is never stored or compared). -/
def normalizeUsername (username : Option String) : Option String :=
  match username with
  | none => none
  | some u =>
    let t := pyStrip u
    if t = "" then none
    else
      let t2 := pyLstripAt t
      if t2 = "" then none else some t2

/-- `full_name.strip() if isinstance(full_name, str) else None`, treated as
absent when falsy. -/
def normalizeFullName (fullName : Option String) : Option String :=
  match fullName with
  | none => none
  | some f =>
    let t := pyStrip f
    if t = "" then none else some t

/-- `Storage._normalise_language_key`. -/
def normaliseLanguageKey (languageCode : Option String) : String :=
  match languageCode with
  | none => "__default__"
  | some code =>
    let c := pyStrip code
    if c = "" then "__default__" else pyLower c

/-- `Storage.add_admin` — `(changed, new state)`; `save()` runs iff `changed`. -/
def Storage.add_admin (userId : Int) (username fullName : Option String)
    (s : StorageState) : Bool × StorageState :=
  let nu := normalizeUsername username
  let nf := normalizeFullName fullName
  let profile0 := dgetD s.admin_profiles userId []
  let changed1 := !s.admins.contains userId
  let admins1 := if s.admins.contains userId then s.admins else s.admins ++ [userId]
  let changed2 :=
    match nu with
    | some u => decide (dget profile0 "username" ≠ some (some u))
    | none => false
  let profile1 :=
    match nu with
    | some u =>
      if dget profile0 "username" ≠ some (some u) then
        dinsert profile0 "username" (some u)
      else profile0
    | none => profile0
  let changed3 :=
    match nf with
    | some f => decide (dget profile1 "full_name" ≠ some (some f))
    | none => false
  let profile2 :=
    match nf with
    | some f =>
      if dget profile1 "full_name" ≠ some (some f) then
        dinsert profile1 "full_name" (some f)
      else profile1
    | none => profile1
  -- `setdefault` materializes the profile, then `if not profile: pop`
  let profiles1 := dsetdefault s.admin_profiles userId []
  let profilesFinal :=
    if profile2 = [] then dpop profiles1 userId else dinsert profiles1 userId profile2
  (changed1 || changed2 || changed3,
   { s with admins := admins1, admin_profiles := profilesFinal })

/-- `Storage.remove_admin`. -/
def Storage.remove_admin (userId : Int) (s : StorageState) : Bool × StorageState :=
  if s.admins.contains userId then
    (true, { s with admins := s.admins.erase userId,
                    admin_profiles := dpop s.admin_profiles userId })
  else (false, s)

/-- `dict.update` (right operand wins, new keys append in order). -/
def dictUpdate {K V : Type} [DecidableEq K] (d : List (K × V)) (src : List (K × V)) :
    List (K × V) :=
  src.foldl (fun acc kv => dinsert acc kv.1 kv.2) d

/-- `Storage.get_application_questions`. -/
def Storage.get_application_questions (languageCode : Option String)
    (s : StorageState) : List (String × String) :=
  let languageKey := normaliseLanguageKey languageCode
  let defaultBucket := dgetD s.application_questions "__default__" []
  let overrides := if defaultBucket ≠ [] then dictUpdate [] defaultBucket else []
  if languageKey ≠ "__default__" then
    dictUpdate overrides (dgetD s.application_questions languageKey [])
  else overrides

/-- `Storage.set_application_question` — `(changed, new state)`. -/
def Storage.set_application_question (questionId : String) (prompt : Option String)
    (languageCode : Option String) (s : StorageState) : Bool × StorageState :=
  let normalisedId := pyStrip questionId  -- `(question_id or "").strip()`
  if normalisedId = "" then (false, s)
  else
    let trimmedPrompt := pyStrip (prompt.getD "")  -- `(prompt or "").strip()`
    let languageKey := normaliseLanguageKey languageCode
    let bucket := dgetD s.application_questions languageKey []
    -- `bucket = self._state.application_questions.setdefault(language_key, {})`
    let qs0 := dsetdefault s.application_questions languageKey []
    if trimmedPrompt ≠ "" then
      if dget bucket normalisedId = some trimmedPrompt then
        (false, { s with application_questions := qs0 })
      else
        let qs1 := dinsert qs0 languageKey (dinsert bucket normalisedId trimmedPrompt)
        (true, { s with application_questions := qs1 })
    else
      if dget bucket normalisedId = none then
        (false, { s with application_questions := qs0 })
      else
        let bucket' := dpop bucket normalisedId
        let qs1 := dinsert qs0 languageKey bucket'
        let qs2 := if bucket' = [] then dpop qs1 languageKey else qs1
        (true, { s with application_questions := qs2 })

/-- `Storage.add_application` — `(added, new state)`.  `responses or []` is
modeled by the caller passing `[]` for an absent list. -/
def Storage.add_application (localOff : Int) (now : PyDateTime) (userId : Int)
    (fullName : String) (username answer : Option String)
    (languageCode : Option String) (responses : List ApplicationResponse)
    (s : StorageState) : Bool × StorageState :=
  let approved :=
    match dget s.application_history userId with
    | some e => e.status == "approved"
    | none => false
  if approved then (false, s)
  else if dmem s.applications userId then (false, s)
  else
    let timestamp := format_timestamp localOff now
    let app : Application :=
      { user_id := userId, full_name := fullName, username := username,
        answer := answer, created_at := timestamp,
        language_code := languageCode, responses := responses }
    let entry : ApplicationHistoryEntry :=
      { status := "pending", updated_at := timestamp, note := none,
        language_code := languageCode }
    (true,
     { s with applications := dinsert s.applications userId app,
              application_history := dinsert s.application_history userId entry })

/-- `Storage.pop_application` — `(popped, new state, save() invoked)`. -/
def Storage.pop_application (userId : Int) (s : StorageState) :
    Option Application × StorageState × Bool :=
  match dget s.applications userId with
  | none => (none, s, false)
  | some a => (some a, { s with applications := dpop s.applications userId }, true)

/-- `Storage.withdraw_application` — `(withdrew, new state)`. -/
def Storage.withdraw_application (localOff : Int) (now : PyDateTime) (userId : Int)
    (s : StorageState) : Bool × StorageState :=
  match dget s.applications userId with
  | none => (false, s)
  | some a =>
    let timestamp := format_timestamp localOff now
    let entry : ApplicationHistoryEntry :=
      { status := "withdrawn", updated_at := timestamp, note := none,
        language_code := a.language_code }
    (true,
     { s with applications := dpop s.applications userId,
              application_history := dinsert s.application_history userId entry })

/-- `Storage.mark_application_status` (always saves; returns nothing). -/
def Storage.mark_application_status (localOff : Int) (now : PyDateTime)
    (userId : Int) (status : String) (note : Option String)
    (languageCode : Option String) (s : StorageState) : StorageState :=
  let timestamp := format_timestamp localOff now
  -- `language = language_code or getattr(previous, "language_code", None)`
  let fallback :=
    match dget s.application_history userId with
    | some prev => prev.language_code
    | none => none
  let language :=
    match languageCode with
    | some l => if l ≠ "" then some l else fallback
    | none => fallback
  let entry : ApplicationHistoryEntry :=
    { status := status, updated_at := timestamp, note := note,
      language_code := language }
  { s with application_history := dinsert s.application_history userId entry }

/-- `Storage.add_xp` — `(new cumulative total, new state)`. -/
def Storage.add_xp (localOff : Int) (now : PyDateTime) (chatId userId amount : Int)
    (fullName username : Option String) (s : StorageState) : Int × StorageState :=
  let chatKey := intStr chatId
  let userKey := intStr userId
  let xp0 := dsetdefault s.xp chatKey []
  let chatScores := dgetD xp0 chatKey []
  let newTotal := dgetD chatScores userKey 0 + amount
  let xp1 := dinsert xp0 chatKey (dinsert chatScores userKey newTotal)
  let profile0 := dgetD s.xp_profiles userKey []
  let nu := normalizeUsername username
  let nf := normalizeFullName fullName
  let profile1 :=
    match nu with
    | some u => dinsert profile0 "username" (.jstr u)
    | none => profile0
  let profile2 :=
    match nf with
    | some f => dinsert profile1 "full_name" (.jstr f)
    | none => profile1
  -- `chats = profile.setdefault("chats", [])`; a non-list value cannot reach
  -- this point (Python would raise on `.append`), so the model reads a list
  let chatsList :=
    match dgetD profile2 "chats" (.jarr []) with
    | .jarr l => l
    | _ => []
  let chatsList' :=
    if chatsList.contains (.jstr chatKey) then chatsList
    else chatsList ++ [.jstr chatKey]
  let profile3 := dinsert (dsetdefault profile2 "chats" (.jarr [])) "chats" (.jarr chatsList')
  let profile4 := dinsert profile3 "last_chat" (.jstr chatKey)
  let profile5 := dinsert profile4 "updated_at" (.jstr (format_timestamp localOff now))
  let profile6 := dinsert profile5 "updated_at_iso" (.jstr (pyIsoformat now))
  let xpProfiles1 := dinsert (dsetdefault s.xp_profiles userKey []) userKey profile6
  (newTotal, { s with xp := xp1, xp_profiles := xpProfiles1 })

/-- `Storage.get_xp_leaderboard` (stable sort, descending by score). -/
def Storage.get_xp_leaderboard (chatId : Int) (limit : Nat) (s : StorageState) :
    List (String × Int) :=
  let scores := dgetD s.xp (intStr chatId) []
  (scores.mergeSort (fun a b => b.2 ≤ a.2)).take limit

/-- `Storage.add_cup` (always saves; returns nothing). -/
def Storage.add_cup (localOff : Int) (now : PyDateTime) (chatId : Int)
    (title description : String) (podium : List String) (s : StorageState) :
    StorageState :=
  let chatKey := intStr chatId
  let cups0 := dsetdefault s.cups chatKey []
  let entry : List (String × JValue) :=
    [("title", .jstr title), ("description", .jstr description),
     ("podium", .jarr (podium.map JValue.jstr)),
     ("created_at", .jstr (format_timestamp localOff now))]
  { s with cups := dinsert cups0 chatKey (dgetD cups0 chatKey [] ++ [entry]) }

/-- States reachable from the empty state through the public mutation API,
under any sequence of instants and configured offsets. -/
inductive Reachable : StorageState → Prop where
  | empty : Reachable StorageState.empty
  | add_admin (u : Int) (un fn : Option String) {s : StorageState} :
      Reachable s → Reachable (Storage.add_admin u un fn s).2
  | remove_admin (u : Int) {s : StorageState} :
      Reachable s → Reachable (Storage.remove_admin u s).2
  | set_application_question (qid : String) (p : Option String) (lc : Option String)
      {s : StorageState} : Reachable s →
      Reachable (Storage.set_application_question qid p lc s).2
  | add_application (off : Int) (now : PyDateTime) (u : Int) (fn : String)
      (un ans lc : Option String) (rs : List ApplicationResponse) {s : StorageState} :
      Reachable s → Reachable (Storage.add_application off now u fn un ans lc rs s).2
  | pop_application (u : Int) {s : StorageState} :
      Reachable s → Reachable (Storage.pop_application u s).2.1
  | withdraw_application (off : Int) (now : PyDateTime) (u : Int) {s : StorageState} :
      Reachable s → Reachable (Storage.withdraw_application off now u s).2
  | mark_application_status (off : Int) (now : PyDateTime) (u : Int) (st : String)
      (note lc : Option String) {s : StorageState} :
      Reachable s → Reachable (Storage.mark_application_status off now u st note lc s)
  | add_xp (off : Int) (now : PyDateTime) (c u a : Int) (fn un : Option String)
      {s : StorageState} : Reachable s → Reachable (Storage.add_xp off now c u a fn un s).2
  | add_cup (off : Int) (now : PyDateTime) (c : Int) (t d : String) (p : List String)
      {s : StorageState} : Reachable s → Reachable (Storage.add_cup off now c t d p s)

/-! ## Persistence engine model

The filesystem is reduced to the two paths the engine touches: the primary
snapshot file and its `.tmp` sibling.  A file's bytes are represented by
their decode result (`json.dumps` is deterministic and injective on payloads,
so byte identity of well-formed snapshots coincides with payload equality);
`FileBytes.invalid` stands for content that is empty-decode-failure — not
valid UTF-8/JSON.  A signature is the `(st_mtime, st_size)` pair, abstracted
as a pair of integers chosen by the filesystem at write time. -/

inductive FileBytes : Type where
  | empty : FileBytes
  | invalid : FileBytes
  | json : JValue → FileBytes
  deriving DecidableEq, Repr

structure FileData where
  content : FileBytes
  sig : Int × Int
  deriving DecidableEq, Repr

structure FS where
  primary : Option FileData
  tmp : Option FileBytes
  deriving DecidableEq, Repr

/-- In-memory engine state: `_state` and `_snapshot_signature`. -/
structure StorageM where
  state : StorageState
  sig : Option (Int × Int)
  deriving DecidableEq, Repr

/-- `Storage._compute_snapshot_signature`. -/
def compute_snapshot_signature (fs : FS) : Option (Int × Int) :=
  fs.primary.map (·.sig)

/-- Failure injection for one `_write_snapshot` call: succeed, fail during the
temporary-file write (leaving partially written bytes), or fail during the
rename. -/
inductive WriteOutcome : Type where
  | ok : WriteOutcome
  | failWrite : FileBytes → WriteOutcome
  | failRename : WriteOutcome
  deriving DecidableEq, Repr

/-- `Storage._write_snapshot(payload)`: write the payload to the `.tmp`
sibling, then atomically rename it onto the primary path; on any failure
delete the temporary file (ignoring file-not-found) and re-raise.  `newSig`
is the `(mtime, size)` the filesystem assigns to the renamed file. -/
def write_snapshot (payload : FileBytes) (newSig : Int × Int)
    (outcome : WriteOutcome) (fs : FS) : Except Unit Unit × FS :=
  match outcome with
  | .failWrite halfWritten =>
    -- step 2 fails: tmp holds partial bytes, cleanup unlinks it, re-raise
    let fs1 : FS := { fs with tmp := some halfWritten }
    (.error (), { fs1 with tmp := none })
  | .failRename =>
    -- steps 2–3 succeed, step 4 fails: cleanup unlinks tmp, re-raise
    let fs1 : FS := { fs with tmp := some payload }
    (.error (), { fs1 with tmp := none })
  | .ok =>
    -- tmp written, then atomically renamed onto the primary
    (.ok (), { primary := some { content := payload, sig := newSig }, tmp := none })

/-- `Storage.save()` without a configured backup path: serialize the state,
write it via `_write_snapshot`, then refresh the staleness signature.  On a
write failure the exception propagates before the signature refresh, so the
in-memory `StorageM` is returned unchanged. -/
def Storage.save (m : StorageM) (newSig : Int × Int) (outcome : WriteOutcome)
    (fs : FS) : Except Unit Unit × StorageM × FS :=
  let payload := FileBytes.json m.state.to_dict
  match write_snapshot payload newSig outcome fs with
  | (.error e, fs') => (.error e, m, fs')
  | (.ok _, fs') => (.ok (), { m with sig := compute_snapshot_signature fs' }, fs')

/-- `Storage.load()`.  A structurally invalid JSON payload makes
`StorageState.from_dict` raise, which `load` does not catch. -/
def Storage.load (localOff : Int) (m : StorageM) (fs : FS) :
    Except String StorageM :=
  match fs.primary with
  | none =>
    -- `mkdir(parents=True, exist_ok=True)` touches only the parent directory
    .ok { state := StorageState.empty, sig := none }
  | some f =>
    match f.content with
    | .empty => .ok m
    | .invalid => .ok m  -- UnicodeDecodeError/JSONDecodeError: logged, state kept
    | .json v =>
      match StorageState.from_dict localOff v with
      | .ok st => .ok { state := st, sig := compute_snapshot_signature fs }
      | .error e => .error e

/-- `Storage.ensure_latest_snapshot()`. -/
def Storage.ensure_latest_snapshot (localOff : Int) (m : StorageM) (fs : FS) :
    Except String StorageM :=
  let signature := compute_snapshot_signature fs
  if signature = m.sig then .ok m
  else
    match signature with
    | none =>
      let st := if m.sig ≠ none then StorageState.empty else m.state
      .ok { state := st, sig := none }
    | some _ => Storage.load localOff m fs

/-! ## Basic lemmas -/

instance {ε α : Type} [DecidableEq ε] [DecidableEq α] : DecidableEq (Except ε α)
  | .ok a, .ok b => if h : a = b then .isTrue (by rw [h]) else .isFalse (by simp [h])
  | .error a, .error b => if h : a = b then .isTrue (by rw [h]) else .isFalse (by simp [h])
  | .ok _, .error _ => .isFalse (by simp)
  | .error _, .ok _ => .isFalse (by simp)

theorem natDigits_eq_small {n : Nat} (h : n < 10) : natDigits n = [digitChar n] := by
  unfold natDigits natDigitsFuel
  simp [h]

theorem natDigits_eq_large {n : Nat} (h : ¬ n < 10) :
    natDigits n = natDigits (n / 10) ++ [digitChar (n % 10)] := by
  unfold natDigits
  conv_lhs => rw [natDigitsFuel]
  rw [if_neg h]
  congr 1
  exact natDigitsFuel_fuel_irrel (n / 10) n (Nat.div_lt_self (by omega) (by norm_num))

theorem isDigitCh_digitChar (n : Nat) : isDigitCh (digitChar n) = true := by
  unfold digitChar
  have h : n % 10 < 10 := Nat.mod_lt _ (by norm_num)
  set k := n % 10 with hk
  interval_cases k <;> decide

theorem charVal_digitChar {d : Nat} (h : d < 10) : charVal (digitChar d) = d := by
  unfold digitChar
  rw [Nat.mod_eq_of_lt h]
  interval_cases d <;> decide

theorem natDigits_ne_nil (n : Nat) : natDigits n ≠ [] := by
  by_cases h : n < 10
  · rw [natDigits_eq_small h]; simp
  · rw [natDigits_eq_large h]; simp

theorem natDigits_digits (n : Nat) : ∀ c ∈ natDigits n, isDigitCh c = true := by
  induction n using Nat.strong_induction_on with
  | _ n ih =>
    by_cases h : n < 10
    · rw [natDigits_eq_small h]
      intro c hc
      simp only [List.mem_singleton] at hc
      subst hc
      exact isDigitCh_digitChar _
    · rw [natDigits_eq_large h]
      intro c hc
      rcases List.mem_append.mp hc with h1 | h2
      · exact ih (n / 10) (Nat.div_lt_self (by omega) (by norm_num)) c h1
      · simp only [List.mem_singleton] at h2
        subst h2
        exact isDigitCh_digitChar _

theorem natDigits_length_le {k n : Nat} (hk : 1 ≤ k) (h : n < 10 ^ k) :
    (natDigits n).length ≤ k := by
  induction k generalizing n with
  | zero => omega
  | succ k ih =>
    by_cases hn : n < 10
    · rw [natDigits_eq_small hn]; simp
    · have hk1 : 1 ≤ k := by
        by_contra hc
        have : k = 0 := by omega
        subst this
        simp [pow_one] at h
        omega
      rw [natDigits_eq_large hn]
      have hdiv : n / 10 < 10 ^ k := by
        have : n < 10 ^ k * 10 := by
          calc n < 10 ^ (k + 1) := h
          _ = 10 ^ k * 10 := by ring
        omega
      have := ih hk1 hdiv
      simp [List.length_append]
      omega

theorem digitsVal_natDigits (n : Nat) : digitsVal (natDigits n) = n := by
  induction n using Nat.strong_induction_on with
  | _ n ih =>
    by_cases h : n < 10
    · rw [natDigits_eq_small h]
      simp [digitsVal, charVal_digitChar h]
    · rw [natDigits_eq_large h]
      unfold digitsVal
      rw [List.foldl_append]
      have h1 : List.foldl (fun acc c => acc * 10 + charVal c) 0 (natDigits (n / 10)) = n / 10 :=
        ih (n / 10) (Nat.div_lt_self (by omega) (by norm_num))
      rw [h1]
      simp [charVal_digitChar (Nat.mod_lt n (by norm_num))]
      omega

theorem digit_ne_dash {c : Char} (h : isDigitCh c = true) : ¬ c = '-' := by
  intro he
  subst he
  simp [isDigitCh] at h

theorem natStr_data (n : Nat) : (natStr n).data = natDigits n := rfl

theorem strToInt_intStr (i : Int) : strToInt (intStr i) = some i := by
  by_cases hneg : i < 0
  · have hdata : (intStr i).data = '-' :: natDigits i.natAbs := by
      unfold intStr
      rw [if_pos hneg, String.data_append]
      rfl
    unfold strToInt
    rw [hdata]
    rw [strToIntAux]
    rw [if_pos rfl, if_pos]
    · rw [digitsVal_natDigits]
      congr 1
      omega
    · simp only [Bool.and_eq_true, decide_eq_true_eq, ne_eq]
      exact ⟨by simpa using natDigits_ne_nil _, List.all_eq_true.mpr (natDigits_digits _)⟩
  · have hdata : (intStr i).data = natDigits i.natAbs := by
      unfold intStr
      rw [if_neg hneg]
      rfl
    obtain ⟨c, cs, hcons⟩ := List.exists_cons_of_ne_nil (natDigits_ne_nil i.natAbs)
    unfold strToInt
    rw [hdata, hcons]
    have hcdig : isDigitCh c = true := by
      apply natDigits_digits
      rw [hcons]; exact List.mem_cons_self _ _
    rw [strToIntAux]
    rw [if_neg (digit_ne_dash hcdig), if_pos]
    · rw [← hcons, digitsVal_natDigits]
      congr 1
      omega
    · rw [← hcons]
      exact List.all_eq_true.mpr (natDigits_digits _)

theorem parseIntKey_intStr (i : Int) : parseIntKey (intStr i) = .ok i := by
  unfold parseIntKey
  rw [strToInt_intStr]

theorem intStr_ne_empty (i : Int) : intStr i ≠ "" := by
  intro h
  have : (intStr i).data = [] := by rw [h]
  unfold intStr at this
  split at this
  · rw [String.data_append] at this
    simp at this
  · rw [natStr_data] at this
    exact natDigits_ne_nil _ this

theorem padChars_length_ge (k n : Nat) : k ≤ (padChars k n).length := by
  unfold padChars
  rw [List.length_append, List.length_replicate]
  omega

theorem padChars_length {k n : Nat} (hk : 1 ≤ k) (h : n < 10 ^ k) :
    (padChars k n).length = k := by
  unfold padChars
  rw [List.length_append, List.length_replicate]
  have := natDigits_length_le hk h
  omega

theorem padChars_digits (k n : Nat) : ∀ c ∈ padChars k n, isDigitCh c = true := by
  intro c hc
  unfold padChars at hc
  rcases List.mem_append.mp hc with h1 | h2
  · rw [List.eq_of_mem_replicate h1]
    decide
  · exact natDigits_digits n c h2

theorem stripChars_eq_rdrop (l : List Char) :
    stripChars l = List.rdropWhile isPySpace (List.dropWhile isPySpace l) := rfl

theorem rdrop_then_drop {A : List Char} (hAA : List.dropWhile isPySpace A = A) :
    List.dropWhile isPySpace (List.rdropWhile isPySpace A) =
      List.rdropWhile isPySpace A := by
  rcases hR : List.rdropWhile isPySpace A with _ | ⟨c, cs⟩
  · simp
  obtain ⟨t, ht⟩ := List.dropWhile_suffix (p := isPySpace) (l := A.reverse)
  have hA2 : A = c :: (cs ++ t.reverse) := by
    have h1 := congrArg List.reverse ht
    rw [List.reverse_append, List.reverse_reverse] at h1
    have h2 : List.rdropWhile isPySpace A ++ t.reverse = A := h1
    rw [hR] at h2
    simpa using h2.symm
  subst hA2
  have hpc : isPySpace c = false := by
    by_contra hb
    have hb' : isPySpace c = true := by
      cases hx : isPySpace c
      · exact absurd hx hb
      · rfl
    rw [List.dropWhile_cons, if_pos hb'] at hAA
    have hlen := congrArg List.length hAA
    have hle : (List.dropWhile isPySpace (cs ++ t.reverse)).length ≤
        (cs ++ t.reverse).length := by
      have hsub := List.dropWhile_sublist (l := cs ++ t.reverse) (p := isPySpace)
      exact hsub.length_le
    rw [List.length_cons] at hlen
    omega
  rw [List.dropWhile_cons, if_neg (by simp [hpc])]

theorem stripChars_idem (l : List Char) : stripChars (stripChars l) = stripChars l := by
  rw [stripChars_eq_rdrop (stripChars l), stripChars_eq_rdrop l]
  rw [rdrop_then_drop (List.dropWhile_idempotent _ _)]
  exact List.rdropWhile_idempotent _ _

theorem pyStrip_idem (s : String) : pyStrip (pyStrip s) = pyStrip s := by
  unfold pyStrip
  exact congrArg String.mk (stripChars_idem s.data)

theorem isoParse_none_of_no_dash {cs : List Char} (h : cs.get? 4 ≠ some '-') :
    isoParse cs = none := by
  match cs with
  | [] => rfl
  | [_] => rfl
  | [_, _] => rfl
  | [_, _, _] => rfl
  | [_, _, _, _] => rfl
  | y1 :: y2 :: y3 :: y4 :: sep :: rest =>
    have hs : ¬ sep = '-' := by
      intro hx
      apply h
      rw [hx]
      rfl
    rw [isoParse]
    rw [if_neg (fun hand => hs hand.1)]

theorem strftimeDisplay_shape (dt : PyDateTime) :
    ∃ y rest, (strftimeDisplay dt).data = padChars 4 y ++ '/' :: rest := by
  unfold strftimeDisplay
  rcases epochToCivil dt.naive with ⟨y, mo, da, hh, mi, ss⟩
  refine ⟨y.toNat,
    (padNum 2 mo).data ++ '/' :: ((padNum 2 da).data ++ (" · " : String).data ++
      (padNum 2 hh).data ++ (":" : String).data ++ (padNum 2 mi).data ++
      (":" : String).data ++ (padNum 2 ss).data), ?_⟩
  simp only [String.data_append]
  simp [padNum, List.append_assoc]

theorem format_shape (off : Int) (dt : PyDateTime) :
    ∃ y rest, (format_timestamp off dt).data = padChars 4 y ++ '/' :: rest := by
  unfold format_timestamp
  obtain ⟨y, rest, hd⟩ := strftimeDisplay_shape
    (pyAstimezone off (if dt.tz = none then { dt with tz := some off } else dt))
  by_cases h0 : off = 0
  · rw [if_pos h0]
    refine ⟨y, rest ++ (" UTC" : String).data, ?_⟩
    rw [String.data_append, hd]
    simp
  · rw [if_neg h0]
    refine ⟨y, rest ++ ((" UTC" ++ (if 0 ≤ off then "+" else "-") ++
      padNum 2 (off.natAbs / 60) ++ ":" ++ padNum 2 (off.natAbs % 60)) : String).data, ?_⟩
    simp only [String.data_append] at hd ⊢
    rw [hd]
    simp

theorem format_fifth_char (off : Int) (dt : PyDateTime) :
    (format_timestamp off dt).data.get? 4 ≠ some '-' := by
  obtain ⟨y, rest, hd⟩ := format_shape off dt
  rw [hd]
  have hlen := padChars_length_ge 4 y
  rcases Nat.lt_or_ge 4 (padChars 4 y).length with hlt | hge
  · rw [List.get?_append hlt]
    intro hcontra
    have hmem : '-' ∈ padChars 4 y := List.get?_mem hcontra
    have := padChars_digits 4 y '-' hmem
    simp [isDigitCh] at this
  · have h4 : (padChars 4 y).length = 4 := by omega
    rw [List.get?_append_right (by omega)]
    rw [h4]
    simp

theorem isoParse_format (off : Int) (dt : PyDateTime) :
    isoParse (format_timestamp off dt).data = none :=
  isoParse_none_of_no_dash (format_fifth_char off dt)

theorem normalize_of_isoParse_none {off : Int} {v : String}
    (h : isoParse v.data = none) : normalize_timestamp off v = v := by
  unfold normalize_timestamp
  by_cases he : v = ""
  · rw [if_pos he]
    exact he.symm
  · rw [if_neg he, h]

theorem normalize_format (off off2 : Int) (dt : PyDateTime) :
    normalize_timestamp off2 (format_timestamp off dt) = format_timestamp off dt :=
  normalize_of_isoParse_none (isoParse_format off dt)

theorem format_timestamp_ne_empty (off : Int) (dt : PyDateTime) :
    format_timestamp off dt ≠ "" := by
  obtain ⟨y, rest, hd⟩ := format_shape off dt
  intro h
  rw [h] at hd
  have : ([] : List Char) = padChars 4 y ++ '/' :: rest := hd
  have hlen := congrArg List.length this
  simp at hlen
  omega

theorem dget_dinsert_self {K V : Type} [DecidableEq K] (l : List (K × V)) (k : K)
    (v : V) : dget (dinsert l k v) k = some v := by
  induction l with
  | nil => simp [dinsert, dget]
  | cons hd tl ih =>
    by_cases h : hd.1 = k
    · simp [dinsert, h, dget]
    · simp [dinsert, h, dget, ih]

theorem dget_dinsert_ne {K V : Type} [DecidableEq K] {l : List (K × V)} {k k' : K}
    (v : V) (h : k' ≠ k) : dget (dinsert l k v) k' = dget l k' := by
  induction l with
  | nil =>
    simp only [dinsert, dget]
    rw [if_neg (fun he : k = k' => h he.symm)]
  | cons hd tl ih =>
    by_cases hh : hd.1 = k
    · simp only [dinsert, if_pos hh, dget]
      by_cases hk : hd.1 = k'
      · exact absurd (hk.symm.trans hh) h
      · simp [hk]
    · simp only [dinsert, if_neg hh]
      by_cases hk : hd.1 = k'
      · simp [dget, hk]
      · simp [dget, hk, ih]

theorem dget_append {K V : Type} [DecidableEq K] (l t : List (K × V)) (k : K) :
    dget (l ++ t) k = ((dget l k).rec (dget t k) (fun v => some v)) := by
  induction l with
  | nil => simp [dget]
  | cons hd tl ih =>
    by_cases hh : hd.1 = k
    · simp [dget, hh]
    · simp only [List.cons_append, dget, if_neg hh]
      exact ih

theorem dget_append_right {K V : Type} [DecidableEq K] {l : List (K × V)} {k : K}
    (t : List (K × V)) (h : dget l k = none) : dget (l ++ t) k = dget t k := by
  rw [dget_append, h]

theorem dget_dsetdefault_ne {K V : Type} [DecidableEq K] {l : List (K × V)}
    {k k' : K} (v : V) (h : k' ≠ k) : dget (dsetdefault l k v) k' = dget l k' := by
  unfold dsetdefault
  cases hg : dget l k
  · rw [dget_append]
    cases hk : dget l k'
    · simp only [hk]
      simp [dget]
      exact fun he => h he.symm
    · simp [hk]
  · rfl

theorem dget_dsetdefault_self {K V : Type} [DecidableEq K] (l : List (K × V))
    (k : K) (v : V) : dget (dsetdefault l k v) k = some ((dget l k).getD v) := by
  unfold dsetdefault
  cases hg : dget l k
  · rw [dget_append_right _ hg]
    simp [dget]
  · simpa using hg

theorem dget_mem {K V : Type} [DecidableEq K] {l : List (K × V)} {k : K} {v : V}
    (h : dget l k = some v) : (k, v) ∈ l := by
  induction l with
  | nil => simp [dget] at h
  | cons hd tl ih =>
    by_cases hh : hd.1 = k
    · rw [dget, if_pos hh] at h
      injection h with h2
      refine List.mem_cons.mpr (Or.inl ?_)
      rw [← hh, ← h2]
    · rw [dget, if_neg hh] at h
      exact List.mem_cons_of_mem _ (ih h)

theorem mem_dinsert {K V : Type} [DecidableEq K] {l : List (K × V)} {k k' : K}
    {v v' : V} (h : (k', v') ∈ dinsert l k v) :
    (k', v') ∈ l ∨ (k' = k ∧ v' = v) := by
  induction l with
  | nil =>
    simp [dinsert] at h
    right
    exact ⟨h.1, h.2⟩
  | cons hd tl ih =>
    by_cases hh : hd.1 = k
    · rw [dinsert, if_pos hh] at h
      rcases List.mem_cons.mp h with h1 | h2
      · injection h1 with ha hb
        right
        exact ⟨ha.trans hh, hb⟩
      · left
        exact List.mem_cons_of_mem _ h2
    · rw [dinsert, if_neg hh] at h
      rcases List.mem_cons.mp h with h1 | h2
      · left
        rw [h1]
        exact List.mem_cons_self _ _
      · rcases ih h2 with h3 | h3
        · left
          exact List.mem_cons_of_mem _ h3
        · right
          exact h3

theorem mem_dsetdefault {K V : Type} [DecidableEq K] {l : List (K × V)} {k k' : K}
    {v v' : V} (h : (k', v') ∈ dsetdefault l k v) :
    (k', v') ∈ l ∨ (k' = k ∧ v' = v) := by
  unfold dsetdefault at h
  cases hg : dget l k
  · rw [hg] at h
    rcases List.mem_append.mp h with h1 | h2
    · left; exact h1
    · simp at h2
      right
      exact ⟨h2.1, h2.2⟩
  · rw [hg] at h
    left
    exact h

theorem keys_dinsert_mem {K V : Type} [DecidableEq K] {l : List (K × V)} {k : K}
    (v : V) (h : (dget l k).isSome) : (dinsert l k v).map Prod.fst = l.map Prod.fst := by
  induction l with
  | nil => simp [dget] at h
  | cons hd tl ih =>
    by_cases hh : hd.1 = k
    · simp [dinsert, hh]
    · rw [dget, if_neg hh] at h
      simp [dinsert, hh, ih h]

theorem keys_dsetdefault {K V : Type} [DecidableEq K] (l : List (K × V)) (k : K)
    (v : V) : (dsetdefault l k v).map Prod.fst = l.map Prod.fst ∨
      (dsetdefault l k v).map Prod.fst = l.map Prod.fst ++ [k] := by
  unfold dsetdefault
  cases dget l k
  · right; simp
  · left; rfl

theorem dget_none_of_not_mem_keys {K V : Type} [DecidableEq K] {l : List (K × V)}
    {k : K} (h : k ∉ l.map Prod.fst) : dget l k = none := by
  induction l with
  | nil => rfl
  | cons hd tl ih =>
    simp only [List.map_cons, List.mem_cons] at h
    push_neg at h
    rw [dget, if_neg (fun he => h.1 he.symm)]
    exact ih h.2

theorem dget_dpop_self_of_nodup {K V : Type} [DecidableEq K] {l : List (K × V)}
    {k : K} (h : (l.map Prod.fst).Nodup) : dget (dpop l k) k = none := by
  induction l with
  | nil => rfl
  | cons hd tl ih =>
    simp only [List.map_cons, List.nodup_cons] at h
    by_cases hh : hd.1 = k
    · rw [dpop, if_pos hh]
      apply dget_none_of_not_mem_keys
      rw [← hh]
      exact h.1
    · rw [dpop, if_neg hh, dget, if_neg hh]
      exact ih h.2

theorem dget_dpop_ne {K V : Type} [DecidableEq K] {l : List (K × V)} {k k' : K}
    (h : k' ≠ k) : dget (dpop l k) k' = dget l k' := by
  induction l with
  | nil => rfl
  | cons hd tl ih =>
    by_cases hh : hd.1 = k
    · rw [dpop, if_pos hh, dget, if_neg (fun he : hd.1 = k' => h (he.symm.trans hh))]
    · rw [dpop, if_neg hh, dget, dget]
      by_cases hk : hd.1 = k'
      · rw [if_pos hk, if_pos hk]
      · rw [if_neg hk, if_neg hk]
        exact ih

/-! ## Example fixtures used by witnesses and counterexamples -/

/-- A concrete aware instant: 1970-01-01 00:00:00 UTC. -/
def exInstant : PyDateTime := { naive := 0, tz := some 0 }

/-- A state holding one pending application for user 7. -/
def exAppState : StorageState :=
  (Storage.add_application 0 exInstant 7 "User" none none none [] StorageState.empty).2

/-! ## Claim theorems -/

/-- C10: `pop_application` removes at most the pending `Application` record —
it never modifies `application_history` or any other state field (it records
no "withdrawn" entry) — and when no application exists for the id it returns
`None`, leaves the entire state unchanged, and performs no `save()` (the
third component, "`save()` was invoked", is `false`). -/
theorem pop_application_frame (u : Int) (s : StorageState) :
    (dget s.applications u = none →
      Storage.pop_application u s = (none, s, false)) ∧
    (∀ a, dget s.applications u = some a →
      Storage.pop_application u s =
        (some a, { s with applications := dpop s.applications u }, true) ∧
      (Storage.pop_application u s).2.1.application_history =
        s.application_history) := by
  constructor
  · intro h
    unfold Storage.pop_application
    rw [h]
  · intro a h
    unfold Storage.pop_application
    rw [h]
    exact ⟨rfl, rfl⟩

theorem pop_application_frame_witness :
    Storage.pop_application 5 StorageState.empty = (none, StorageState.empty, false) ∧
    Storage.pop_application 7 exAppState =
      (some { user_id := 7, full_name := "User", username := none, answer := none,
              created_at := "1970/01/01 · 00:00:00 UTC", language_code := none,
              responses := [] },
       { exAppState with applications := dpop exAppState.applications 7 }, true) :=
  ⟨(pop_application_frame 5 StorageState.empty).1 (by decide),
   ((pop_application_frame 7 exAppState).2 _ (by decide)).1⟩

/-- C3: `add_application(u, …)` returns `False` and changes nothing when `u`
already has a live application or `u`'s history entry has status
`"approved"`; on success it creates the application and (re)writes a
`"pending"` history entry carrying the very same `created_at` timestamp. -/
theorem add_application_exclusivity (off : Int) (now : PyDateTime) (u : Int)
    (fn : String) (un ans lc : Option String) (rs : List ApplicationResponse)
    (s : StorageState) :
    (∀ e, dget s.application_history u = some e → e.status = "approved" →
      Storage.add_application off now u fn un ans lc rs s = (false, s)) ∧
    (dmem s.applications u = true →
      Storage.add_application off now u fn un ans lc rs s = (false, s)) ∧
    ((∀ e, dget s.application_history u = some e → e.status ≠ "approved") →
      dmem s.applications u = false →
      Storage.add_application off now u fn un ans lc rs s =
        (true, { s with
          applications := dinsert s.applications u
            { user_id := u, full_name := fn, username := un, answer := ans,
              created_at := format_timestamp off now, language_code := lc,
              responses := rs },
          application_history := dinsert s.application_history u
            { status := "pending", updated_at := format_timestamp off now,
              note := none, language_code := lc } })) := by
  refine ⟨?_, ?_, ?_⟩
  · intro e he hst
    unfold Storage.add_application
    rw [he]
    simp [hst]
  · intro h
    unfold Storage.add_application
    cases hg : dget s.application_history u with
    | none => simp [h]
    | some e =>
      by_cases hst : e.status = "approved"
      · simp [hst]
      · simp [hst, h]
  · intro hna h
    unfold Storage.add_application
    cases hg : dget s.application_history u with
    | none => simp [h]
    | some e =>
      have := hna e hg
      simp [this, h]

theorem add_application_exclusivity_witness :
    Storage.add_application 0 exInstant 7 "User" none none none [] exAppState =
      (false, exAppState) ∧
    Storage.add_application 0 exInstant 7 "User" none none none []
        (Storage.mark_application_status 0 exInstant 7 "approved" none none
          (Storage.pop_application 7 exAppState).2.1) =
      (false, Storage.mark_application_status 0 exInstant 7 "approved" none none
        (Storage.pop_application 7 exAppState).2.1) ∧
    Storage.add_application 0 exInstant 7 "User" none none none []
        StorageState.empty =
      (true, { StorageState.empty with
        applications := dinsert StorageState.empty.applications 7
          { user_id := 7, full_name := "User", username := none, answer := none,
            created_at := format_timestamp 0 exInstant, language_code := none,
            responses := [] },
        application_history := dinsert StorageState.empty.application_history 7
          { status := "pending", updated_at := format_timestamp 0 exInstant,
            note := none, language_code := none } }) :=
  ⟨(add_application_exclusivity 0 exInstant 7 "User" none none none []
      exAppState).2.1 (by decide),
   (add_application_exclusivity 0 exInstant 7 "User" none none none []
      (Storage.mark_application_status 0 exInstant 7 "approved" none none
        (Storage.pop_application 7 exAppState).2.1)).1
     { status := "approved", updated_at := "1970/01/01 · 00:00:00 UTC",
       note := none, language_code := none } (by decide) (by decide),
   (add_application_exclusivity 0 exInstant 7 "User" none none none []
      StorageState.empty).2.2 (by decide) (by decide)⟩

/-- C2: if the write or rename step of the snapshot write fails, the
exception propagates to the caller of `save()`, the primary file's content
afterward is identical to its content before the failed `save()`, no
temporary file remains (the cleanup unlink ignores file-not-found), and the
in-memory engine state — including any mutation made before `save()` was
called — is returned unchanged. -/
theorem write_snapshot_failure (payload : FileBytes) (newSig : Int × Int)
    (outcome : WriteOutcome) (fs : FS) (m : StorageM) :
    (outcome ≠ .ok →
      (write_snapshot payload newSig outcome fs).1 = .error () ∧
      (write_snapshot payload newSig outcome fs).2.primary = fs.primary ∧
      (write_snapshot payload newSig outcome fs).2.tmp = none) ∧
    (outcome ≠ .ok →
      Storage.save m newSig outcome fs =
        (.error (), m,
          (write_snapshot (.json m.state.to_dict) newSig outcome fs).2)) := by
  cases outcome with
  | ok => exact ⟨fun h => absurd rfl h, fun h => absurd rfl h⟩
  | failWrite b => exact ⟨fun _ => ⟨rfl, rfl, rfl⟩, fun _ => rfl⟩
  | failRename => exact ⟨fun _ => ⟨rfl, rfl, rfl⟩, fun _ => rfl⟩

theorem write_snapshot_failure_witness :
    ((write_snapshot (.json StorageState.empty.to_dict) (1, 2) (.failWrite .invalid)
        { primary := some { content := .empty, sig := (0, 0) }, tmp := none }).1 =
      .error () ∧
     (write_snapshot (.json StorageState.empty.to_dict) (1, 2) (.failWrite .invalid)
        { primary := some { content := .empty, sig := (0, 0) }, tmp := none }).2.primary =
      some { content := .empty, sig := (0, 0) } ∧
     (write_snapshot (.json StorageState.empty.to_dict) (1, 2) (.failWrite .invalid)
        { primary := some { content := .empty, sig := (0, 0) }, tmp := none }).2.tmp =
      none) ∧
    Storage.save { state := exAppState, sig := none } (1, 2) .failRename
        { primary := some { content := .empty, sig := (0, 0) }, tmp := none } =
      (.error (), { state := exAppState, sig := none },
        (write_snapshot (.json exAppState.to_dict) (1, 2) .failRename
          { primary := some { content := .empty, sig := (0, 0) }, tmp := none }).2) := by
  constructor
  · have h := (write_snapshot_failure (.json StorageState.empty.to_dict) (1, 2)
      (.failWrite .invalid)
      { primary := some { content := .empty, sig := (0, 0) }, tmp := none }
      { state := StorageState.empty, sig := none }).1 (by decide)
    exact ⟨h.1, by rw [h.2.1], h.2.2⟩
  · exact (write_snapshot_failure (.json exAppState.to_dict) (1, 2) .failRename
      { primary := some { content := .empty, sig := (0, 0) }, tmp := none }
      { state := exAppState, sig := none }).2 (by decide)

/-- C4: immediately after a successful `save()`, `ensure_latest_snapshot()`
is a no-op; if the primary file has been externally deleted (the on-disk
signature is absent while one is remembered), it resets the in-memory state
to empty and clears the signature; if the on-disk `(mtime, size)` signature
differs from the remembered one, it re-invokes `load()`, so the in-memory
state reflects the new file content. -/
theorem ensure_latest_snapshot_spec (off : Int) (m : StorageM) (fs : FS)
    (newSig : Int × Int) :
    (∀ m' fs', Storage.save m newSig .ok fs = (.ok (), m', fs') →
      Storage.ensure_latest_snapshot off m' fs' = .ok m') ∧
    (fs.primary = none → m.sig ≠ none →
      Storage.ensure_latest_snapshot off m fs =
        .ok { state := StorageState.empty, sig := none }) ∧
    (∀ f v st, fs.primary = some f → m.sig ≠ some f.sig →
      f.content = .json v → StorageState.from_dict off v = .ok st →
      Storage.ensure_latest_snapshot off m fs =
        .ok { state := st, sig := some f.sig }) := by
  refine ⟨?_, ?_, ?_⟩
  · intro m' fs' hsave
    unfold Storage.save at hsave
    simp only [write_snapshot] at hsave
    injection hsave with h1 h2
    injection h2 with h2 h3
    subst h2
    subst h3
    unfold Storage.ensure_latest_snapshot
    simp [compute_snapshot_signature]
  · intro hp hsig
    unfold Storage.ensure_latest_snapshot
    have hc : compute_snapshot_signature fs = none := by
      unfold compute_snapshot_signature
      rw [hp]
      rfl
    rw [hc]
    rw [if_neg (fun h => hsig h.symm)]
    simp [hsig]
  · intro f v st hp hsig hcontent hfrom
    have hc : compute_snapshot_signature fs = some f.sig := by
      unfold compute_snapshot_signature
      rw [hp]
      rfl
    have hload : Storage.load off m fs = .ok { state := st, sig := some f.sig } := by
      unfold Storage.load
      rw [hp]
      simp only [hcontent, hfrom]
      unfold compute_snapshot_signature
      rw [hp]
      rfl
    unfold Storage.ensure_latest_snapshot
    rw [hc]
    rw [if_neg (fun h => hsig h.symm)]
    exact hload

theorem ensure_latest_snapshot_spec_witness :
    Storage.ensure_latest_snapshot 0
        { state := exAppState, sig := some (1, 2) }
        { primary := some { content := .json exAppState.to_dict, sig := (1, 2) },
          tmp := none } =
      .ok { state := exAppState, sig := some (1, 2) } ∧
    Storage.ensure_latest_snapshot 0 { state := exAppState, sig := some (1, 2) }
        { primary := none, tmp := none } =
      .ok { state := StorageState.empty, sig := none } ∧
    Storage.ensure_latest_snapshot 0 { state := exAppState, sig := some (1, 2) }
        { primary := some { content := .json StorageState.empty.to_dict, sig := (3, 4) },
          tmp := none } =
      .ok { state := StorageState.empty, sig := some (3, 4) } := by
  refine ⟨?_, ?_, ?_⟩
  · exact (ensure_latest_snapshot_spec 0 { state := exAppState, sig := none }
      { primary := none, tmp := none } (1, 2)).1
      { state := exAppState, sig := some (1, 2) }
      { primary := some { content := .json exAppState.to_dict, sig := (1, 2) },
        tmp := none } (by decide)
  · exact (ensure_latest_snapshot_spec 0 { state := exAppState, sig := some (1, 2) }
      { primary := none, tmp := none } (0, 0)).2.1 rfl (by decide)
  · exact (ensure_latest_snapshot_spec 0 { state := exAppState, sig := some (1, 2) }
      { primary := some { content := .json StorageState.empty.to_dict, sig := (3, 4) },
        tmp := none } (0, 0)).2.2
      { content := .json StorageState.empty.to_dict, sig := (3, 4) }
      StorageState.empty.to_dict StorageState.empty rfl (by decide) rfl (by decide)

/-- C5 (amended): `load()` never raises when the primary file is absent
(installs the empty state and clears the signature without creating the
file), or when the file is empty or not valid JSON/UTF-8 (the current
in-memory state and signature are left untouched); on a decodable payload it
fully replaces the in-memory state and records the file's signature.
However — contrary to the claim as stated — a file whose bytes are valid
JSON but not a valid payload object makes `from_dict` raise, and `load()`
does not catch that (see the counterexample). -/
theorem load_defensive (off : Int) (m : StorageM) (fs : FS) :
    (fs.primary = none →
      Storage.load off m fs = .ok { state := StorageState.empty, sig := none }) ∧
    (∀ f, fs.primary = some f → f.content = .empty →
      Storage.load off m fs = .ok m) ∧
    (∀ f, fs.primary = some f → f.content = .invalid →
      Storage.load off m fs = .ok m) ∧
    (∀ f v st, fs.primary = some f → f.content = .json v →
      StorageState.from_dict off v = .ok st →
      Storage.load off m fs = .ok { state := st, sig := some f.sig }) := by
  refine ⟨?_, ?_, ?_, ?_⟩
  · intro hp
    unfold Storage.load
    rw [hp]
  · intro f hp hc
    unfold Storage.load
    rw [hp]
    simp only [hc]
  · intro f hp hc
    unfold Storage.load
    rw [hp]
    simp only [hc]
  · intro f v st hp hc hfrom
    unfold Storage.load
    rw [hp]
    simp only [hc, hfrom]
    unfold compute_snapshot_signature
    rw [hp]
    rfl

theorem load_defensive_witness :
    Storage.load 0 { state := exAppState, sig := some (1, 2) }
        { primary := none, tmp := none } =
      .ok { state := StorageState.empty, sig := none } ∧
    Storage.load 0 { state := exAppState, sig := some (1, 2) }
        { primary := some { content := .empty, sig := (3, 4) }, tmp := none } =
      .ok { state := exAppState, sig := some (1, 2) } ∧
    Storage.load 0 { state := exAppState, sig := some (1, 2) }
        { primary := some { content := .invalid, sig := (3, 4) }, tmp := none } =
      .ok { state := exAppState, sig := some (1, 2) } ∧
    Storage.load 0 { state := exAppState, sig := some (1, 2) }
        { primary := some { content := .json StorageState.empty.to_dict, sig := (3, 4) },
          tmp := none } =
      .ok { state := StorageState.empty, sig := some (3, 4) } := by
  refine ⟨?_, ?_, ?_, ?_⟩
  · exact (load_defensive 0 { state := exAppState, sig := some (1, 2) }
      { primary := none, tmp := none }).1 rfl
  · exact (load_defensive 0 { state := exAppState, sig := some (1, 2) }
      { primary := some { content := .empty, sig := (3, 4) }, tmp := none }).2.1
      { content := .empty, sig := (3, 4) } rfl rfl
  · exact (load_defensive 0 { state := exAppState, sig := some (1, 2) }
      { primary := some { content := .invalid, sig := (3, 4) }, tmp := none }).2.2.1
      { content := .invalid, sig := (3, 4) } rfl rfl
  · exact (load_defensive 0 { state := exAppState, sig := some (1, 2) }
      { primary := some { content := .json StorageState.empty.to_dict, sig := (3, 4) },
        tmp := none }).2.2.2
      { content := .json StorageState.empty.to_dict, sig := (3, 4) }
      StorageState.empty.to_dict StorageState.empty rfl rfl (by decide)

/-- C5 counterexample: the claim says `load()` **never** raises on a bad
primary file, but a file containing `[]` — valid JSON, not a payload object —
makes `from_dict` raise `AttributeError`, which `load()` does not catch:
`load` returns an error instead of installing or keeping a state. -/
theorem load_raises_on_json_array :
    Storage.load 0 { state := StorageState.empty, sig := none }
        { primary := some { content := .json (.jarr []), sig := (0, 0) }, tmp := none } =
      .error "AttributeError: payload has no get" := rfl

theorem dget_isSome_of_mem_keys {K V : Type} [DecidableEq K] {l : List (K × V)}
    {k : K} (h : k ∈ l.map Prod.fst) : (dget l k).isSome := by
  induction l with
  | nil => simp at h
  | cons hd tl ih =>
    simp only [List.map_cons, List.mem_cons] at h
    by_cases hh : hd.1 = k
    · rw [dget, if_pos hh]
      rfl
    · rw [dget, if_neg hh]
      rcases h with h1 | h2
      · exact absurd h1.symm hh
      · exact ih h2

theorem not_mem_keys_of_dget_none {K V : Type} [DecidableEq K] {l : List (K × V)}
    {k : K} (h : dget l k = none) : k ∉ l.map Prod.fst := by
  intro hmem
  have := dget_isSome_of_mem_keys hmem
  rw [h] at this
  exact absurd this (by simp)

theorem nodup_keys_dsetdefault {K V : Type} [DecidableEq K] {l : List (K × V)}
    (k : K) (v : V) (h : (l.map Prod.fst).Nodup) :
    ((dsetdefault l k v).map Prod.fst).Nodup := by
  unfold dsetdefault
  cases hg : dget l k
  · rw [List.map_append]
    rw [List.nodup_append]
    refine ⟨h, by simp, ?_⟩
    intro x hx hy
    simp at hy
    subst hy
    exact not_mem_keys_of_dget_none hg hx
  · exact h

/-- C7 (amended): with an empty/absent prompt, `set_application_question`
removes the question-id key when present and removes the language bucket when
that removal empties it; but when the question-id is *not* present, the call
returns `False` and leaves in place the bucket that `setdefault` just
materialized — which is empty when the language bucket did not previously
exist, so a reachable state *can* contain an empty language bucket
(the claim's "no reachable state contains an empty language bucket" fails;
see the counterexample). -/
theorem set_question_empty_prompt (qid : String) (p lc : Option String)
    (s : StorageState) (hq : pyStrip qid ≠ "") (hp : pyStrip (p.getD "") = "")
    (hnd : (s.application_questions.map Prod.fst).Nodup) :
    (∀ pr, dget (dgetD s.application_questions (normaliseLanguageKey lc) [])
        (pyStrip qid) = some pr →
      (Storage.set_application_question qid p lc s).1 = true ∧
      (dpop (dgetD s.application_questions (normaliseLanguageKey lc) [])
          (pyStrip qid) = [] →
        dget (Storage.set_application_question qid p lc s).2.application_questions
          (normaliseLanguageKey lc) = none) ∧
      (dpop (dgetD s.application_questions (normaliseLanguageKey lc) [])
          (pyStrip qid) ≠ [] →
        dget (Storage.set_application_question qid p lc s).2.application_questions
          (normaliseLanguageKey lc) =
        some (dpop (dgetD s.application_questions (normaliseLanguageKey lc) [])
          (pyStrip qid)))) ∧
    (dget (dgetD s.application_questions (normaliseLanguageKey lc) [])
        (pyStrip qid) = none →
      (Storage.set_application_question qid p lc s).1 = false ∧
      (Storage.set_application_question qid p lc s).2.application_questions =
        dsetdefault s.application_questions (normaliseLanguageKey lc) []) := by
  constructor
  · intro pr hpr
    unfold Storage.set_application_question
    rw [if_neg hq, hp]
    simp only [ne_eq, not_true_eq_false, if_false, hpr]
    constructor
    · simp
    constructor
    · intro hempty
      rw [hempty]
      simp only [if_pos rfl]
      apply dget_dpop_self_of_nodup
      have h0 : ((dsetdefault s.application_questions (normaliseLanguageKey lc)
          []).map Prod.fst).Nodup := nodup_keys_dsetdefault _ _ hnd
      rw [keys_dinsert_mem]
      · exact h0
      · rw [dget_dsetdefault_self]
        rfl
    · intro hne
      rw [if_neg hne]
      exact dget_dinsert_self _ _ _
  · intro habs
    unfold Storage.set_application_question
    rw [if_neg hq, hp]
    simp only [ne_eq, not_true_eq_false, if_false, habs]
    exact ⟨rfl, rfl⟩

theorem set_question_empty_prompt_witness :
    (Storage.set_application_question "q1" (some "") (some "fa")
        { StorageState.empty with application_questions := [("fa", [("q1", "x")])] }).1 =
      true ∧
    dget (Storage.set_application_question "q1" (some "") (some "fa")
        { StorageState.empty with
          application_questions := [("fa", [("q1", "x")])] }).2.application_questions
      "fa" = none := by
  have h := set_question_empty_prompt "q1" (some "") (some "fa")
    { StorageState.empty with application_questions := [("fa", [("q1", "x")])] }
    (by decide) (by decide) (by decide)
  have h1 := h.1 "x" (by decide)
  exact ⟨h1.1, h1.2.1 (by decide)⟩

/-- C7 counterexample: calling `set_application_question` with an empty
prompt for a question-id that is absent, in a previously absent language
bucket, returns `False` yet leaves a reachable state whose
`application_questions` contains the empty bucket `"fa" ↦ {}` — observable
in the stored payload as `"fa": {}` — contradicting the claimed invariant. -/
theorem set_question_empty_bucket_counterexample :
    Reachable (Storage.set_application_question "q1" (some "") (some "fa")
      StorageState.empty).2 ∧
    (Storage.set_application_question "q1" (some "") (some "fa")
      StorageState.empty).1 = false ∧
    (Storage.set_application_question "q1" (some "") (some "fa")
      StorageState.empty).2.application_questions = [("fa", [])] ∧
    dget (toDictQuestions (Storage.set_application_question "q1" (some "")
      (some "fa") StorageState.empty).2.application_questions) "fa" =
      some (.jobj []) :=
  ⟨Reachable.set_application_question _ _ _ Reachable.empty, by decide, by decide,
    by decide⟩

/-- A state exercising every entity: one admin with profile, one XP profile,
one pending application with `None` optionals, one denied history entry with
`None` note. -/
def exFullState : StorageState :=
  Storage.mark_application_status 0 exInstant 9 "denied" none none
    (Storage.add_xp 0 exInstant 100 1 5 (some "Hero") (some "@hero")
      (Storage.add_admin 1 (some "@founder") (some "Founder")
        (Storage.add_application 0 exInstant 7 "User" none none none []
          StorageState.empty).2).2).2

/-- C6 (amended): `to_dict` omits optional fields only for `admin_profiles`
(`None` values) and `xp_profiles` (`None` and `""` values); for every other
nested entity — in particular `Application.username`/`answer`/`language_code`
and history `note`/`language_code` — a `None` value is emitted as `null`
rather than omitted (contradicting the claim as stated; see the
counterexample). -/
theorem to_dict_null_handling (s : StorageState) :
    (∀ uid prof k v, (uid, prof) ∈ s.admin_profiles →
      (k, v) ∈ adminProfileToJ prof → v ≠ .jnull) ∧
    (∀ u prof k v, (u, prof) ∈ s.xp_profiles →
      (k, v) ∈ xpProfileToJ prof → v ≠ .jnull ∧ v ≠ .jstr "") ∧
    (∀ uid a, (uid, a) ∈ s.applications → a.username = none →
      ("username", JValue.jnull) ∈ applicationToJ a) ∧
    (∀ uid a, (uid, a) ∈ s.applications → a.answer = none →
      ("answer", JValue.jnull) ∈ applicationToJ a) ∧
    (∀ uid a, (uid, a) ∈ s.applications → a.language_code = none →
      ("language_code", JValue.jnull) ∈ applicationToJ a) ∧
    (∀ uid e, (uid, e) ∈ s.application_history → e.note = none →
      ("note", JValue.jnull) ∈ historyEntryToJ e) ∧
    (∀ uid e, (uid, e) ∈ s.application_history → e.language_code = none →
      ("language_code", JValue.jnull) ∈ historyEntryToJ e) := by
  refine ⟨?_, ?_, ?_, ?_, ?_, ?_, ?_⟩
  · intro uid prof k v _ hmem
    unfold adminProfileToJ at hmem
    obtain ⟨a, _, ha⟩ := List.mem_filterMap.mp hmem
    cases hcase : a.2 with
    | none => rw [hcase] at ha; simp [Option.map] at ha
    | some str =>
      rw [hcase] at ha
      simp [Option.map] at ha
      rw [← ha.2]
      simp
  · intro u prof k v _ hmem
    unfold xpProfileToJ at hmem
    have := (List.mem_filter.mp hmem).2
    simp at this
    exact this
  · intro uid a _ h
    simp [applicationToJ, h, optJ]
  · intro uid a _ h
    simp [applicationToJ, h, optJ]
  · intro uid a _ h
    simp [applicationToJ, h, optJ]
  · intro uid e _ h
    simp [historyEntryToJ, h, optJ]
  · intro uid e _ h
    simp [historyEntryToJ, h, optJ]

theorem to_dict_null_handling_witness :
    (JValue.jstr "founder" ≠ JValue.jnull) ∧
    (JValue.jstr "Hero" ≠ JValue.jnull ∧ JValue.jstr "Hero" ≠ JValue.jstr "") ∧
    ("username", JValue.jnull) ∈ applicationToJ
      { user_id := 7, full_name := "User", username := none, answer := none,
        created_at := "1970/01/01 · 00:00:00 UTC", language_code := none,
        responses := [] } ∧
    ("note", JValue.jnull) ∈ historyEntryToJ
      { status := "denied", updated_at := "1970/01/01 · 00:00:00 UTC",
        note := none, language_code := none } := by
  have h := to_dict_null_handling exFullState
  refine ⟨?_, ?_, ?_, ?_⟩
  · exact h.1 1 [("username", some "founder"), ("full_name", some "Founder")]
      "username" (.jstr "founder") (by decide) (by decide)
  · exact h.2.1 "1"
      [("username", .jstr "hero"), ("full_name", .jstr "Hero"),
       ("chats", .jarr [.jstr "100"]), ("last_chat", .jstr "100"),
       ("updated_at", .jstr "1970/01/01 · 00:00:00 UTC"),
       ("updated_at_iso", .jstr "1970-01-01T00:00:00+00:00")]
      "full_name" (.jstr "Hero") (by decide) (by decide)
  · exact h.2.2.1 7 _ (by decide) rfl
  · exact h.2.2.2.2.2.1 9 _ (by decide) rfl

/-- C6 counterexample: for an application created with `username=None`,
`to_dict` emits the entry `"username": null` (and likewise `answer` and
`language_code`) instead of omitting it — so the claimed omission of
`None`-valued optionals does not hold for every nested entity. -/
theorem to_dict_emits_null_for_application :
    dget (toDictApplications (Storage.add_application 0 exInstant 1 "Alice"
        none none none [] StorageState.empty).2.applications) "1" =
      some (.jobj [("user_id", .jint 1), ("full_name", .jstr "Alice"),
        ("username", .jnull), ("answer", .jnull),
        ("created_at", .jstr "1970/01/01 · 00:00:00 UTC"),
        ("language_code", .jnull), ("responses", .jarr [])]) ∧
    ("username", JValue.jnull) ∈
      [("user_id", JValue.jint 1), ("full_name", JValue.jstr "Alice"),
       ("username", JValue.jnull), ("answer", JValue.jnull),
       ("created_at", JValue.jstr "1970/01/01 · 00:00:00 UTC"),
       ("language_code", JValue.jnull), ("responses", JValue.jarr [])] :=
  ⟨by decide, by decide⟩

/-- A run of exactly `n` decimal digits. -/
def digitRun (l : List Char) (n : Nat) : Prop :=
  l.length = n ∧ ∀ c ∈ l, isDigitCh c = true

/-- The exact rendering shape the spec claims for `format`:
`YYYY/MM/DD · HH:MM:SS UTC±HH:MM` — four/two-digit numeric fields, an
explicit sign, and two-digit hours and minutes in the offset suffix. -/
def matchesDisplayShape (s : String) : Prop :=
  ∃ (y mo da hh mi ss oh om : List Char) (sg : Char),
    digitRun y 4 ∧ digitRun mo 2 ∧ digitRun da 2 ∧ digitRun hh 2 ∧
    digitRun mi 2 ∧ digitRun ss 2 ∧ digitRun oh 2 ∧ digitRun om 2 ∧
    (sg = '+' ∨ sg = '-') ∧
    s.data = y ++ ['/'] ++ mo ++ ['/'] ++ da ++ (" · " : String).data ++ hh ++
      [':'] ++ mi ++ [':'] ++ ss ++ (" UTC" : String).data ++ [sg] ++ oh ++
      [':'] ++ om

/-- The aware instant `format_timestamp` actually renders: the argument made
aware if naive, then converted to the configured offset. -/
def localizedMoment (off : Int) (dt : PyDateTime) : PyDateTime :=
  pyAstimezone off (if dt.tz = none then { dt with tz := some off } else dt)

theorem charVal_le_of_digit {c : Char} (h : isDigitCh c = true) : charVal c ≤ 9 := by
  unfold isDigitCh at h
  unfold charVal
  simp at h
  omega

theorem parseTzHM_bound {l : List Char} {hm : Nat × Nat}
    (h : parseTzHM l = some hm) : hm.1 ≤ 99 ∧ hm.2 ≤ 99 := by
  unfold parseTzHM at h
  split at h
  · rename_i a b c
    split at h
    · rename_i hd
      simp only [Bool.and_eq_true] at hd
      injection h with h
      subst h
      have hb := charVal_le_of_digit hd.1.1
      have hb2 := charVal_le_of_digit hd.1.2
      have hc := charVal_le_of_digit hd.2
      constructor <;> simp <;> omega
    · exact absurd h (by simp)
  · rename_i a a2 b c
    split at h
    · rename_i hd
      simp only [Bool.and_eq_true] at hd
      injection h with h
      subst h
      have ha := charVal_le_of_digit hd.1.1.1
      have ha2 := charVal_le_of_digit hd.1.1.2
      have hb := charVal_le_of_digit hd.1.2
      have hc := charVal_le_of_digit hd.2
      constructor <;> simp <;> omega
    · exact absurd h (by simp)
  · exact absurd h (by simp)

theorem parseTzBody_bound {l : List Char} {off : Int}
    (h : parseTzBody l = some off) : off.natAbs ≤ 1439 := by
  unfold parseTzBody at h
  split at h
  · split at h
    · rename_i sign rest hsign
      rcases hhm : parseTzHM rest with _ | ⟨hours, minutes⟩
      · rw [hhm] at h
        exact absurd h (by simp)
      · rw [hhm] at h
        obtain ⟨hh99, hm99⟩ := parseTzHM_bound hhm
        simp only at hh99 hm99
        split at h
        · rename_i habs
          exact absurd habs (by simp)
        · rename_i hours2 minutes2 heq
          injection heq with heq
          injection heq with heq1 heq2
          subst heq1
          subst heq2
          split at h
          · exact absurd h (by simp)
          · rename_i hbound
            rw [not_or] at hbound
            have h1 : hours ≤ 23 := by omega
            have h2 : minutes ≤ 59 := by omega
            injection h with h
            subst h
            have hnn : (0 : Int) ≤ (hours : Int) * 60 + (minutes : Int) := by positivity
            split
            · rw [Int.natAbs_neg]
              omega
            · omega
    · exact absurd h (by simp)
  · exact absurd h (by simp)

theorem parseTzOffset_bound {spec : String} {off : Int}
    (h : parseTzOffset (some spec) = some off) : off.natAbs ≤ 1439 := by
  unfold parseTzOffset at h
  split at h
  · exact absurd h (by simp)
  · split at h
    · exact absurd h (by simp)
    · split at h
      · injection h with h
        subst h
        decide
      · exact parseTzBody_bound h

theorem epochToCivil_time_bounds (sec : Int) :
    (epochToCivil sec).2.2.2.1 ≤ 23 ∧ (epochToCivil sec).2.2.2.2.1 ≤ 59 ∧
      (epochToCivil sec).2.2.2.2.2 ≤ 59 := by
  unfold epochToCivil
  have hfd : sec.fdiv 86400 = sec / 86400 := Int.fdiv_eq_ediv _ (by norm_num)
  have hmod : sec - sec.fdiv 86400 * 86400 = sec % 86400 := by
    rw [hfd, Int.emod_def]
    ring
  have h0 : 0 ≤ sec % 86400 := Int.emod_nonneg _ (by norm_num)
  have h1 : sec % 86400 < 86400 := Int.emod_lt_of_pos _ (by norm_num)
  rcases hC : civilFromDays (sec.fdiv 86400) with ⟨y, m, d⟩
  simp only [hC, hmod]
  have hlt : (sec % 86400).toNat < 86400 := by omega
  refine ⟨?_, ?_, ?_⟩ <;> omega

theorem format_timestamp_eq_nonzero (off : Int) (dt : PyDateTime) (hoff : off ≠ 0) :
    format_timestamp off dt =
      strftimeDisplay (localizedMoment off dt) ++ " UTC" ++
        (if 0 ≤ off then "+" else "-") ++ padNum 2 (off.natAbs / 60) ++ ":" ++
        padNum 2 (off.natAbs % 60) := by
  simp only [format_timestamp, localizedMoment]
  rw [if_neg hoff]

theorem strftimeDisplay_eq {dt : PyDateTime} {y : Int} {mo da hh mi ss : Nat}
    (hE : epochToCivil dt.naive = (y, mo, da, hh, mi, ss)) :
    strftimeDisplay dt = padNum 4 y.toNat ++ "/" ++ padNum 2 mo ++ "/" ++
      padNum 2 da ++ " · " ++ padNum 2 hh ++ ":" ++ padNum 2 mi ++ ":" ++
      padNum 2 ss := by
  unfold strftimeDisplay
  rw [hE]

/-- C8 (amended): for every instant and every successfully configured
*non-zero* offset, `format_timestamp` renders the exact shape
`YYYY/MM/DD · HH:MM:SS UTC±HH:MM` — explicit sign and two-digit hours and
minutes in the offset suffix (stated under the in-range bounds on the
converted instant's civil date, which hold for every `datetime`-representable
instant); but for a successfully configured *zero* offset (`"UTC"`), the
suffix is plain `" UTC"` with no `±HH:MM` — the claim as stated fails there
(see the counterexample). -/
theorem format_timestamp_shape (spec : String) (off : Int) (dt : PyDateTime)
    (hspec : parseTzOffset (some spec) = some off) :
    (off ≠ 0 →
      (epochToCivil (localizedMoment off dt).naive).1.toNat ≤ 9999 →
      (epochToCivil (localizedMoment off dt).naive).2.1 ≤ 99 →
      (epochToCivil (localizedMoment off dt).naive).2.2.1 ≤ 99 →
      matchesDisplayShape (format_timestamp off dt)) ∧
    (off = 0 →
      format_timestamp off dt =
        strftimeDisplay (localizedMoment off dt) ++ " UTC") := by
  constructor
  · intro hoff hy hmo hda
    have ht := epochToCivil_time_bounds (localizedMoment off dt).naive
    rcases hE : epochToCivil (localizedMoment off dt).naive with ⟨y, mo, da, hh, mi, ss⟩
    rw [hE] at hy hmo hda ht
    simp only at hy hmo hda ht
    have hb := parseTzOffset_bound hspec
    have hoh : off.natAbs / 60 ≤ 99 := by omega
    have hom : off.natAbs % 60 ≤ 99 := by omega
    rw [format_timestamp_eq_nonzero off dt hoff, strftimeDisplay_eq hE]
    refine ⟨padChars 4 y.toNat, padChars 2 mo, padChars 2 da, padChars 2 hh,
      padChars 2 mi, padChars 2 ss, padChars 2 (off.natAbs / 60),
      padChars 2 (off.natAbs % 60), if 0 ≤ off then '+' else '-',
      ⟨padChars_length (by norm_num) (by norm_num; omega), padChars_digits _ _⟩,
      ⟨padChars_length (by norm_num) (by norm_num; omega), padChars_digits _ _⟩,
      ⟨padChars_length (by norm_num) (by norm_num; omega), padChars_digits _ _⟩,
      ⟨padChars_length (by norm_num) (by norm_num; omega), padChars_digits _ _⟩,
      ⟨padChars_length (by norm_num) (by norm_num; omega), padChars_digits _ _⟩,
      ⟨padChars_length (by norm_num) (by norm_num; omega), padChars_digits _ _⟩,
      ⟨padChars_length (by norm_num) (by norm_num; omega), padChars_digits _ _⟩,
      ⟨padChars_length (by norm_num) (by norm_num; omega), padChars_digits _ _⟩,
      by by_cases h : 0 ≤ off <;> simp [h], ?_⟩
    have h1 : ("/" : String).data = ['/'] := rfl
    have h2 : (":" : String).data = [':'] := rfl
    have h3 : ("+" : String).data = ['+'] := rfl
    have h4 : ("-" : String).data = ['-'] := rfl
    by_cases h : 0 ≤ off <;>
      simp [h, String.data_append, padNum, h1, h2, h3, h4, List.append_assoc]
  · intro h0
    subst h0
    rfl

theorem format_timestamp_shape_witness :
    matchesDisplayShape (format_timestamp 210 { naive := 0, tz := some 0 }) ∧
    format_timestamp 0 exInstant =
      strftimeDisplay (localizedMoment 0 exInstant) ++ " UTC" :=
  ⟨(format_timestamp_shape "UTC+03:30" 210 { naive := 0, tz := some 0 }
      (by decide)).1 (by decide) (by decide) (by decide) (by decide),
   (format_timestamp_shape "UTC" 0 exInstant (by decide)).2 rfl⟩

/-- C8 counterexample: `"UTC"` configures successfully (zero offset), but
`format_timestamp` then renders `"1970/01/01 · 00:00:00 UTC"` — no sign and
no `HH:MM` in the suffix — so the claimed exact shape
`YYYY/MM/DD · HH:MM:SS UTC±HH:MM` does not hold for the zero offset. -/
theorem format_zero_offset_counterexample :
    parseTzOffset (some "UTC") = some 0 ∧
    format_timestamp 0 exInstant = "1970/01/01 · 00:00:00 UTC" ∧
    ¬ matchesDisplayShape "1970/01/01 · 00:00:00 UTC" := by
  refine ⟨by decide, by decide, ?_⟩
  rintro ⟨y, mo, da, hh, mi, ss, oh, om, sg, hy, hmo, hda, hhh, hmi, hss,
    hoh, hom, hsg, hdata⟩
  have hlen := congrArg List.length hdata
  have hL : ("1970/01/01 · 00:00:00 UTC" : String).data.length = 25 := rfl
  have hsep : (" · " : String).data.length = 3 := rfl
  have hutc : (" UTC" : String).data.length = 4 := rfl
  simp [List.length_append, hy.1, hmo.1, hda.1, hhh.1, hmi.1, hss.1, hoh.1,
    hom.1, hL, hsep, hutc] at hlen

/-- States reachable through the public mutation API when every `add_xp`
amount is non-negative (the spec notes negative deltas are allowed by the
API but unused by current collaborators). -/
inductive ReachableNN : StorageState → Prop where
  | empty : ReachableNN StorageState.empty
  | add_admin (u : Int) (un fn : Option String) {s : StorageState} :
      ReachableNN s → ReachableNN (Storage.add_admin u un fn s).2
  | remove_admin (u : Int) {s : StorageState} :
      ReachableNN s → ReachableNN (Storage.remove_admin u s).2
  | set_application_question (qid : String) (p : Option String) (lc : Option String)
      {s : StorageState} : ReachableNN s →
      ReachableNN (Storage.set_application_question qid p lc s).2
  | add_application (off : Int) (now : PyDateTime) (u : Int) (fn : String)
      (un ans lc : Option String) (rs : List ApplicationResponse) {s : StorageState} :
      ReachableNN s → ReachableNN (Storage.add_application off now u fn un ans lc rs s).2
  | pop_application (u : Int) {s : StorageState} :
      ReachableNN s → ReachableNN (Storage.pop_application u s).2.1
  | withdraw_application (off : Int) (now : PyDateTime) (u : Int) {s : StorageState} :
      ReachableNN s → ReachableNN (Storage.withdraw_application off now u s).2
  | mark_application_status (off : Int) (now : PyDateTime) (u : Int) (st : String)
      (note lc : Option String) {s : StorageState} :
      ReachableNN s → ReachableNN (Storage.mark_application_status off now u st note lc s)
  | add_xp (off : Int) (now : PyDateTime) (c u a : Int) (fn un : Option String)
      {s : StorageState} (ha : 0 ≤ a) :
      ReachableNN s → ReachableNN (Storage.add_xp off now c u a fn un s).2
  | add_cup (off : Int) (now : PyDateTime) (c : Int) (t d : String) (p : List String)
      {s : StorageState} : ReachableNN s → ReachableNN (Storage.add_cup off now c t d p s)

theorem add_admin_xp (u : Int) (un fn : Option String) (s : StorageState) :
    (Storage.add_admin u un fn s).2.xp = s.xp := rfl

theorem remove_admin_xp (u : Int) (s : StorageState) :
    (Storage.remove_admin u s).2.xp = s.xp := by
  unfold Storage.remove_admin
  split <;> rfl

theorem set_question_xp (q : String) (p lc : Option String) (s : StorageState) :
    (Storage.set_application_question q p lc s).2.xp = s.xp := by
  unfold Storage.set_application_question
  dsimp only
  repeat' split
  all_goals rfl

theorem add_application_xp (off : Int) (now : PyDateTime) (u : Int) (fn : String)
    (un ans lc : Option String) (rs : List ApplicationResponse) (s : StorageState) :
    (Storage.add_application off now u fn un ans lc rs s).2.xp = s.xp := by
  unfold Storage.add_application
  dsimp only
  repeat' split
  all_goals rfl

theorem pop_application_xp (u : Int) (s : StorageState) :
    (Storage.pop_application u s).2.1.xp = s.xp := by
  unfold Storage.pop_application
  split <;> rfl

theorem withdraw_application_xp (off : Int) (now : PyDateTime) (u : Int)
    (s : StorageState) : (Storage.withdraw_application off now u s).2.xp = s.xp := by
  unfold Storage.withdraw_application
  split <;> rfl

theorem mark_application_status_xp (off : Int) (now : PyDateTime) (u : Int)
    (st : String) (note lc : Option String) (s : StorageState) :
    (Storage.mark_application_status off now u st note lc s).xp = s.xp := rfl

theorem add_cup_xp (off : Int) (now : PyDateTime) (c : Int) (t d : String)
    (p : List String) (s : StorageState) :
    (Storage.add_cup off now c t d p s).xp = s.xp := rfl

theorem add_xp_xp (off : Int) (now : PyDateTime) (c u a : Int)
    (fn un : Option String) (s : StorageState) :
    (Storage.add_xp off now c u a fn un s).1 =
      dgetD (dgetD s.xp (intStr c) []) (intStr u) 0 + a ∧
    (Storage.add_xp off now c u a fn un s).2.xp =
      dinsert (dsetdefault s.xp (intStr c) []) (intStr c)
        (dinsert (dgetD s.xp (intStr c) []) (intStr u)
          (dgetD (dgetD s.xp (intStr c) []) (intStr u) 0 + a)) := by
  unfold Storage.add_xp
  dsimp only
  have hcs : dgetD (dsetdefault s.xp (intStr c) []) (intStr c) [] =
      dgetD s.xp (intStr c) [] := by
    unfold dgetD
    rw [dget_dsetdefault_self]
    cases dget s.xp (intStr c) <;> rfl
  rw [hcs]
  exact ⟨rfl, rfl⟩

theorem reachableNN_xp_nonneg : ∀ s, ReachableNN s →
    ∀ ck scores uk n, (ck, scores) ∈ s.xp → (uk, n) ∈ scores → 0 ≤ n := by
  intro s h
  induction h with
  | empty => intro ck scores uk n h1 _; simp [StorageState.empty] at h1
  | add_admin u un fn _ ih => rw [add_admin_xp]; exact ih
  | remove_admin u _ ih => rw [remove_admin_xp]; exact ih
  | set_application_question q p lc _ ih => rw [set_question_xp]; exact ih
  | add_application off now u fn un ans lc rs _ ih =>
    rw [add_application_xp]; exact ih
  | pop_application u _ ih => rw [pop_application_xp]; exact ih
  | withdraw_application off now u _ ih => rw [withdraw_application_xp]; exact ih
  | mark_application_status off now u st note lc _ ih =>
    rw [mark_application_status_xp]; exact ih
  | add_cup off now c t d p _ ih => rw [add_cup_xp]; exact ih
  | @add_xp off now c u a fn un s0 ha _ ih =>
    rw [(add_xp_xp off now c u a fn un _).2]
    intro ck scores uk n h1 h2
    rcases mem_dinsert h1 with h3 | ⟨_, h4⟩
    · rcases mem_dsetdefault h3 with h5 | ⟨_, h6⟩
      · exact ih ck scores uk n h5 h2
      · rw [h6] at h2
        simp at h2
    · rw [h4] at h2
      rcases mem_dinsert h2 with h5 | ⟨_, h6⟩
      · unfold dgetD at h5
        cases hg : dget s0.xp (intStr c) with
        | none => rw [hg] at h5; simp at h5
        | some cs =>
          rw [hg] at h5
          exact ih (intStr c) cs uk n (dget_mem hg) h5
      · rw [h6]
        unfold dgetD
        cases hg : dget s0.xp (intStr c) with
        | none =>
          simp [dget]
          omega
        | some cs =>
          simp only [Option.getD]
          cases hg2 : dget cs (intStr u) with
          | none =>
            simp
            omega
          | some m =>
            have := ih (intStr c) cs (intStr u) m (dget_mem hg) (dget_mem hg2)
            simp
            omega

/-- C9 (amended): scores change only via `add_xp` — every other public
mutator leaves the XP ledger untouched — and `add_xp` adds its amount to the
existing score (a missing entry counts as 0) and returns the new cumulative
total.  Non-negativity of every stored score holds for states reachable with
non-negative amounts; the API itself accepts negative amounts, under which a
reachable state can hold a negative score (see the counterexample). -/
theorem xp_ledger_spec :
    (∀ s, ReachableNN s →
      ∀ ck scores uk n, (ck, scores) ∈ s.xp → (uk, n) ∈ scores → 0 ≤ n) ∧
    (∀ off now c u a fn un s,
      (Storage.add_xp off now c u a fn un s).1 =
        dgetD (dgetD s.xp (intStr c) []) (intStr u) 0 + a ∧
      dget (dgetD (Storage.add_xp off now c u a fn un s).2.xp (intStr c) [])
          (intStr u) =
        some (dgetD (dgetD s.xp (intStr c) []) (intStr u) 0 + a)) ∧
    (∀ u un fn s, (Storage.add_admin u un fn s).2.xp = s.xp) ∧
    (∀ u s, (Storage.remove_admin u s).2.xp = s.xp) ∧
    (∀ q p lc s, (Storage.set_application_question q p lc s).2.xp = s.xp) ∧
    (∀ off now u fn un ans lc rs s,
      (Storage.add_application off now u fn un ans lc rs s).2.xp = s.xp) ∧
    (∀ u s, (Storage.pop_application u s).2.1.xp = s.xp) ∧
    (∀ off now u s, (Storage.withdraw_application off now u s).2.xp = s.xp) ∧
    (∀ off now u st note lc s,
      (Storage.mark_application_status off now u st note lc s).xp = s.xp) ∧
    (∀ off now c t d p s, (Storage.add_cup off now c t d p s).xp = s.xp) := by
  refine ⟨reachableNN_xp_nonneg, ?_, add_admin_xp, remove_admin_xp,
    set_question_xp, add_application_xp, pop_application_xp,
    withdraw_application_xp, mark_application_status_xp, add_cup_xp⟩
  intro off now c u a fn un s
  have h := add_xp_xp off now c u a fn un s
  refine ⟨h.1, ?_⟩
  rw [h.2]
  unfold dgetD
  rw [dget_dinsert_self]
  simp only [Option.getD]
  rw [dget_dinsert_self]

theorem xp_ledger_spec_witness :
    (0 : Int) ≤ 10 ∧
    (Storage.add_xp 0 exInstant 100 1 5 none none
      (Storage.add_xp 0 exInstant 100 1 5 none none StorageState.empty).2).1 =
      dgetD (dgetD (Storage.add_xp 0 exInstant 100 1 5 none none
        StorageState.empty).2.xp "100" []) "1" 0 + 5 := by
  constructor
  · exact xp_ledger_spec.1
      (Storage.add_xp 0 exInstant 100 1 5 none none
        (Storage.add_xp 0 exInstant 100 1 5 none none StorageState.empty).2).2
      (ReachableNN.add_xp 0 exInstant 100 1 5 none none (by norm_num)
        (ReachableNN.add_xp 0 exInstant 100 1 5 none none (by norm_num)
          ReachableNN.empty))
      "100" [("1", 10)] "1" 10 (by decide) (by decide)
  · exact (xp_ledger_spec.2.1 0 exInstant 100 1 5 none none
      (Storage.add_xp 0 exInstant 100 1 5 none none StorageState.empty).2).1

/-- C9 counterexample: `add_xp` accepts a negative amount, so a state with a
negative score is reachable through the public mutation API — the call
returns `-5` and stores `-5`, contradicting the claimed non-negativity
invariant. -/
theorem negative_xp_counterexample :
    Reachable (Storage.add_xp 0 exInstant 100 1 (-5) none none
      StorageState.empty).2 ∧
    (Storage.add_xp 0 exInstant 100 1 (-5) none none StorageState.empty).1 = -5 ∧
    dget (dgetD (Storage.add_xp 0 exInstant 100 1 (-5) none none
      StorageState.empty).2.xp "100" []) "1" = some (-5) ∧
    (-5 : Int) < 0 :=
  ⟨Reachable.add_xp 0 exInstant 100 1 (-5) none none Reachable.empty,
   by decide, by decide, by decide⟩

/-! ## Round-trip development (C1)

`WF` collects the structural facts that hold of every API-reachable state
and make `from_dict ∘ to_dict` computable field by field: display timestamps
never parse as ISO, admin-profile values are non-empty strings, xp-profile
values are non-null non-empty, `chats` is a list of non-empty strings, every
cup has a display `created_at`, and stored prompts have non-empty strip. -/

def WFAdminProfiles (l : List (Int × List (String × Option String))) : Prop :=
  ∀ e ∈ l, ∀ kv ∈ e.2, ∃ str, kv.2 = some str ∧ str ≠ ""

def WFApplications (l : List (Int × Application)) : Prop :=
  ∀ e ∈ l, isoParse e.2.created_at.data = none

def WFHistory (l : List (Int × ApplicationHistoryEntry)) : Prop :=
  ∀ e ∈ l, isoParse e.2.updated_at.data = none

def WFXpProfile (p : List (String × JValue)) : Prop :=
  ∀ kv ∈ p, kv.2 ≠ .jnull ∧ kv.2 ≠ .jstr "" ∧
    (kv.1 = "chats" → ∃ cl, kv.2 = .jarr cl ∧
      ∀ x ∈ cl, ∃ cs, x = .jstr cs ∧ cs ≠ "")

def WFXpProfiles (l : List (String × List (String × JValue))) : Prop :=
  ∀ e ∈ l, WFXpProfile e.2

def WFCups (l : List (String × List (List (String × JValue)))) : Prop :=
  ∀ e ∈ l, ∀ cup ∈ e.2, ∃ cs, dget cup "created_at" = some (.jstr cs) ∧
    isoParse cs.data = none

def WFQuestions (l : List (String × List (String × String))) : Prop :=
  ∀ e ∈ l, ∀ kv ∈ e.2, pyStrip kv.2 ≠ ""

def WF (s : StorageState) : Prop :=
  WFAdminProfiles s.admin_profiles ∧ WFApplications s.applications ∧
  WFHistory s.application_history ∧ WFXpProfiles s.xp_profiles ∧
  WFCups s.cups ∧ WFQuestions s.application_questions

/-- The five-key shape `from_dict` rebuilds for an xp profile: the canonical
keys in fixed order, absent ones materialized as `null`, the
`updated_at_iso` key dropped, `chats` re-filtered. -/
def canonXpProfile (p : List (String × JValue)) : List (String × JValue) :=
  [("username", dgetD p "username" .jnull),
   ("full_name", dgetD p "full_name" .jnull),
   ("updated_at", dgetD p "updated_at" .jnull),
   ("last_chat", dgetD p "last_chat" .jnull),
   ("chats", .jarr (match dgetD p "chats" (.jarr []) with
     | .jarr cl => (cl.filter JValue.truthy).map (fun c => .jstr c.pyStr)
     | _ => []))]

/-- What the round trip actually reproduces: every field exactly, except
that each xp profile is replaced by its canonical five-key form. -/
def canonicalizeState (s : StorageState) : StorageState :=
  { s with xp_profiles := s.xp_profiles.map (fun e => (e.1, canonXpProfile e.2)) }

theorem mem_dpop {K V : Type} [DecidableEq K] {l : List (K × V)} {k : K}
    {x : K × V} (h : x ∈ dpop l k) : x ∈ l := by
  induction l with
  | nil => simp [dpop] at h
  | cons hd tl ih =>
    by_cases hh : hd.1 = k
    · rw [dpop, if_pos hh] at h
      exact List.mem_cons_of_mem _ h
    · rw [dpop, if_neg hh] at h
      rcases List.mem_cons.mp h with h1 | h2
      · rw [h1]; exact List.mem_cons_self _ _
      · exact List.mem_cons_of_mem _ (ih h2)

theorem dinsert_self_of_dget {K V : Type} [DecidableEq K] {l : List (K × V)}
    {k : K} {v : V} (h : dget l k = some v) : dinsert l k v = l := by
  induction l with
  | nil => simp [dget] at h
  | cons hd tl ih =>
    by_cases hh : hd.1 = k
    · rw [dget, if_pos hh] at h
      injection h with h
      rw [dinsert, if_pos hh, ← h]
    · rw [dget, if_neg hh] at h
      rw [dinsert, if_neg hh, ih h]

theorem except_bind_ok {ε α β : Type} (x : α) (f : α → Except ε β) :
    (Except.ok x >>= f : Except ε β) = f x := rfl

theorem pyIsoformat_shape (dt : PyDateTime) :
    ∃ y rest, (pyIsoformat dt).data = padChars 4 y ++ '-' :: rest := by
  unfold pyIsoformat
  rcases epochToCivil dt.naive with ⟨y, mo, da, hh, mi, ss⟩
  cases dt.tz with
  | none =>
    refine ⟨y.toNat, (padNum 2 mo).data ++ '-' :: ((padNum 2 da).data ++
      ("T" : String).data ++ (padNum 2 hh).data ++ (":" : String).data ++
      (padNum 2 mi).data ++ (":" : String).data ++ (padNum 2 ss).data), ?_⟩
    simp only [String.data_append]
    simp [padNum, List.append_assoc]
  | some off =>
    refine ⟨y.toNat, (padNum 2 mo).data ++ '-' :: ((padNum 2 da).data ++
      ("T" : String).data ++ (padNum 2 hh).data ++ (":" : String).data ++
      (padNum 2 mi).data ++ (":" : String).data ++ (padNum 2 ss).data ++
      (if 0 ≤ off then "+" else "-").data ++ (padNum 2 (off.natAbs / 60)).data ++
      (":" : String).data ++ (padNum 2 (off.natAbs % 60)).data), ?_⟩
    simp only [String.data_append]
    simp [padNum, List.append_assoc]

theorem pyIsoformat_ne_empty (dt : PyDateTime) : pyIsoformat dt ≠ "" := by
  obtain ⟨y, rest, hd⟩ := pyIsoformat_shape dt
  intro h
  rw [h] at hd
  have : ([] : List Char) = padChars 4 y ++ '-' :: rest := hd
  have hlen := congrArg List.length this
  simp at hlen
  omega

theorem normalizeUsername_ne_empty {un : Option String} {u : String}
    (h : normalizeUsername un = some u) : u ≠ "" := by
  unfold normalizeUsername at h
  dsimp only at h
  split at h
  · exact absurd h (by simp)
  · split at h
    · exact absurd h (by simp)
    · split at h
      · exact absurd h (by simp)
      · rename_i hne
        injection h with h
        rw [← h]
        exact hne

theorem normalizeFullName_ne_empty {fn : Option String} {f : String}
    (h : normalizeFullName fn = some f) : f ≠ "" := by
  unfold normalizeFullName at h
  dsimp only at h
  split at h
  · exact absurd h (by simp)
  · split at h
    · exact absurd h (by simp)
    · rename_i hne
      injection h with h
      rw [← h]
      exact hne

theorem WFprof_dinsert {p : List (String × Option String)} {k str : String}
    (hp : ∀ kv ∈ p, ∃ s2, kv.2 = some s2 ∧ s2 ≠ "") (hs : str ≠ "") :
    ∀ kv ∈ dinsert p k (some str), ∃ s2, kv.2 = some s2 ∧ s2 ≠ "" := by
  intro kv hkv
  rcases mem_dinsert hkv with h | ⟨_, h2⟩
  · exact hp kv h
  · exact ⟨str, by rw [h2], hs⟩

theorem WF_adminProfiles_base {profiles : List (Int × List (String × Option String))}
    (u : Int) (hall : WFAdminProfiles profiles) :
    ∀ kv ∈ dgetD profiles u [], ∃ s2, kv.2 = some s2 ∧ s2 ≠ "" := by
  unfold dgetD
  cases hg : dget profiles u with
  | none => simp
  | some p =>
    intro kv hkv
    exact hall (u, p) (dget_mem hg) kv hkv

theorem WF_adminProfiles_update {profiles : List (Int × List (String × Option String))}
    (u : Int) {prof : List (String × Option String)}
    (hall : WFAdminProfiles profiles)
    (hprof : ∀ kv ∈ prof, ∃ str, kv.2 = some str ∧ str ≠ "") :
    WFAdminProfiles (if prof = [] then dpop (dsetdefault profiles u []) u
      else dinsert (dsetdefault profiles u []) u prof) := by
  have hsd : WFAdminProfiles (dsetdefault profiles u []) := by
    intro e he
    rcases mem_dsetdefault he with h1 | ⟨_, h2⟩
    · exact hall e h1
    · rw [h2]; simp
  split
  · intro e he
    exact hsd e (mem_dpop he)
  · intro e he
    rcases mem_dinsert he with h1 | ⟨_, h2⟩
    · exact hsd e h1
    · rw [h2]
      exact hprof

theorem WF_add_admin (u : Int) (un fn : Option String) {s : StorageState}
    (h : WF s) : WF (Storage.add_admin u un fn s).2 := by
  obtain ⟨h1, h2, h3, h4, h5, h6⟩ := h
  refine ⟨?_, h2, h3, h4, h5, h6⟩
  unfold Storage.add_admin
  dsimp only
  apply WF_adminProfiles_update u h1
  have hbase := WF_adminProfiles_base u h1
  have hp1 : ∀ kv ∈ (match normalizeUsername un with
      | some u2 =>
        if dget (dgetD s.admin_profiles u []) "username" ≠ some (some u2) then
          dinsert (dgetD s.admin_profiles u []) "username" (some u2)
        else dgetD s.admin_profiles u []
      | none => dgetD s.admin_profiles u []),
      ∃ str, kv.2 = some str ∧ str ≠ "" := by
    cases hnu : normalizeUsername un with
    | none => exact hbase
    | some u2 =>
      simp only
      split
      · exact WFprof_dinsert hbase (normalizeUsername_ne_empty hnu)
      · exact hbase
  cases hnf : normalizeFullName fn with
  | none => exact hp1
  | some f2 =>
    simp only
    split
    · exact WFprof_dinsert hp1 (normalizeFullName_ne_empty hnf)
    · exact hp1

theorem WF_remove_admin (u : Int) {s : StorageState} (h : WF s) :
    WF (Storage.remove_admin u s).2 := by
  obtain ⟨h1, h2, h3, h4, h5, h6⟩ := h
  unfold Storage.remove_admin
  split
  · exact ⟨fun e he => h1 e (mem_dpop he), h2, h3, h4, h5, h6⟩
  · exact ⟨h1, h2, h3, h4, h5, h6⟩

theorem WF_set_application_question (q : String) (p lc : Option String)
    {s : StorageState} (h : WF s) :
    WF (Storage.set_application_question q p lc s).2 := by
  obtain ⟨h1, h2, h3, h4, h5, h6⟩ := h
  have hbucket : ∀ kv ∈ dgetD s.application_questions (normaliseLanguageKey lc) [],
      pyStrip kv.2 ≠ "" := by
    unfold dgetD
    cases hg : dget s.application_questions (normaliseLanguageKey lc) with
    | none => simp
    | some b =>
      intro kv hkv
      exact h6 (normaliseLanguageKey lc, b) (dget_mem hg) kv hkv
  have hsd : WFQuestions (dsetdefault s.application_questions
      (normaliseLanguageKey lc) []) := by
    intro e he
    rcases mem_dsetdefault he with hh1 | ⟨_, hh2⟩
    · exact h6 e hh1
    · rw [hh2]; simp
  unfold Storage.set_application_question
  dsimp only
  split
  · exact ⟨h1, h2, h3, h4, h5, h6⟩
  · split
    · split
      · exact ⟨h1, h2, h3, h4, h5, hsd⟩
      · refine ⟨h1, h2, h3, h4, h5, ?_⟩
        intro e he
        rcases mem_dinsert he with hh1 | ⟨_, hh2⟩
        · exact hsd e hh1
        · rw [hh2]
          intro kv hkv
          rcases mem_dinsert hkv with hm1 | ⟨_, hm2⟩
          · exact hbucket kv hm1
          · rw [hm2, pyStrip_idem]
            assumption
    · split
      · exact ⟨h1, h2, h3, h4, h5, hsd⟩
      · refine ⟨h1, h2, h3, h4, h5, ?_⟩
        split
        · intro e he
          have he2 := mem_dpop he
          rcases mem_dinsert he2 with hh1 | ⟨_, hh2⟩
          · exact hsd e hh1
          · rw [hh2]
            intro kv hkv
            exact hbucket kv (mem_dpop hkv)
        · intro e he
          rcases mem_dinsert he with hh1 | ⟨_, hh2⟩
          · exact hsd e hh1
          · rw [hh2]
            intro kv hkv
            exact hbucket kv (mem_dpop hkv)

theorem WF_add_application (off : Int) (now : PyDateTime) (u : Int) (fn : String)
    (un ans lc : Option String) (rs : List ApplicationResponse) {s : StorageState}
    (h : WF s) : WF (Storage.add_application off now u fn un ans lc rs s).2 := by
  obtain ⟨h1, h2, h3, h4, h5, h6⟩ := h
  unfold Storage.add_application
  dsimp only
  split
  · exact ⟨h1, h2, h3, h4, h5, h6⟩
  · split
    · exact ⟨h1, h2, h3, h4, h5, h6⟩
    · refine ⟨h1, ?_, ?_, h4, h5, h6⟩
      · intro e he
        rcases mem_dinsert he with hh1 | ⟨_, hh2⟩
        · exact h2 e hh1
        · rw [hh2]
          exact isoParse_format off now
      · intro e he
        rcases mem_dinsert he with hh1 | ⟨_, hh2⟩
        · exact h3 e hh1
        · rw [hh2]
          exact isoParse_format off now

theorem WF_pop_application (u : Int) {s : StorageState} (h : WF s) :
    WF (Storage.pop_application u s).2.1 := by
  obtain ⟨h1, h2, h3, h4, h5, h6⟩ := h
  unfold Storage.pop_application
  split
  · exact ⟨h1, h2, h3, h4, h5, h6⟩
  · exact ⟨h1, fun e he => h2 e (mem_dpop he), h3, h4, h5, h6⟩

theorem WF_withdraw_application (off : Int) (now : PyDateTime) (u : Int)
    {s : StorageState} (h : WF s) :
    WF (Storage.withdraw_application off now u s).2 := by
  obtain ⟨h1, h2, h3, h4, h5, h6⟩ := h
  unfold Storage.withdraw_application
  split
  · exact ⟨h1, h2, h3, h4, h5, h6⟩
  · refine ⟨h1, fun e he => h2 e (mem_dpop he), ?_, h4, h5, h6⟩
    intro e he
    rcases mem_dinsert he with hh1 | ⟨_, hh2⟩
    · exact h3 e hh1
    · rw [hh2]
      exact isoParse_format off now

theorem WF_mark_application_status (off : Int) (now : PyDateTime) (u : Int)
    (st : String) (note lc : Option String) {s : StorageState} (h : WF s) :
    WF (Storage.mark_application_status off now u st note lc s) := by
  obtain ⟨h1, h2, h3, h4, h5, h6⟩ := h
  refine ⟨h1, h2, ?_, h4, h5, h6⟩
  unfold Storage.mark_application_status
  dsimp only
  intro e he
  rcases mem_dinsert he with hh1 | ⟨_, hh2⟩
  · exact h3 e hh1
  · rw [hh2]
    exact isoParse_format off now

theorem WF_add_cup (off : Int) (now : PyDateTime) (c : Int) (t d : String)
    (p : List String) {s : StorageState} (h : WF s) :
    WF (Storage.add_cup off now c t d p s) := by
  obtain ⟨h1, h2, h3, h4, h5, h6⟩ := h
  refine ⟨h1, h2, h3, h4, ?_, h6⟩
  unfold Storage.add_cup
  dsimp only
  have hbase : ∀ cup ∈ dgetD (dsetdefault s.cups (intStr c) []) (intStr c) [],
      ∃ cs, dget cup "created_at" = some (.jstr cs) ∧ isoParse cs.data = none := by
    unfold dgetD
    rw [dget_dsetdefault_self]
    cases hg : dget s.cups (intStr c) with
    | none => simp
    | some cl =>
      intro cup hcup
      simp only [hg, Option.getD] at hcup
      exact h5 (intStr c, cl) (dget_mem hg) cup hcup
  intro e he
  rcases mem_dinsert he with hh1 | ⟨_, hh2⟩
  · intro cup hcup
    rcases mem_dsetdefault hh1 with hm1 | ⟨_, hm2⟩
    · exact h5 e hm1 cup hcup
    · rw [hm2] at hcup
      simp at hcup
  · rw [hh2]
    intro cup hcup
    rcases List.mem_append.mp hcup with hm1 | hm2
    · exact hbase cup hm1
    · simp only [List.mem_singleton] at hm2
      rw [hm2]
      exact ⟨format_timestamp off now, rfl, isoParse_format off now⟩

theorem WF_add_xp (off : Int) (now : PyDateTime) (c u a : Int)
    (fn un : Option String) {s : StorageState} (h : WF s) :
    WF (Storage.add_xp off now c u a fn un s).2 := by
  obtain ⟨h1, h2, h3, h4, h5, h6⟩ := h
  refine ⟨h1, h2, h3, ?_, h5, h6⟩
  unfold Storage.add_xp
  dsimp only
  have hbase : WFXpProfile (dgetD s.xp_profiles (intStr u) []) := by
    unfold dgetD
    cases hg : dget s.xp_profiles (intStr u) with
    | none => intro kv hkv; simp at hkv
    | some prof => exact h4 (intStr u, prof) (dget_mem hg)
  have hp1 : WFXpProfile (match normalizeUsername un with
      | some u2 => dinsert (dgetD s.xp_profiles (intStr u) []) "username"
          (.jstr u2)
      | none => dgetD s.xp_profiles (intStr u) []) := by
    cases hnu : normalizeUsername un with
    | none => exact hbase
    | some u2 =>
      intro kv hkv
      rcases mem_dinsert hkv with hh1 | ⟨hk, hv⟩
      · exact hbase kv hh1
      · rw [hv]
        have hne := normalizeUsername_ne_empty hnu
        refine ⟨by simp, by simp [hne], ?_⟩
        intro hch
        rw [hk] at hch
        exact absurd hch (by decide)
  generalize hP1 : (match normalizeUsername un with
      | some u2 => dinsert (dgetD s.xp_profiles (intStr u) []) "username"
          (.jstr u2)
      | none => dgetD s.xp_profiles (intStr u) []) = P1 at hp1
  have hp2 : WFXpProfile (match normalizeFullName fn with
      | some f2 => dinsert P1 "full_name" (.jstr f2)
      | none => P1) := by
    cases hnf : normalizeFullName fn with
    | none => exact hp1
    | some f2 =>
      intro kv hkv
      rcases mem_dinsert hkv with hh1 | ⟨hk, hv⟩
      · exact hp1 kv hh1
      · rw [hv]
        have hne := normalizeFullName_ne_empty hnf
        refine ⟨by simp, by simp [hne], ?_⟩
        intro hch
        rw [hk] at hch
        exact absurd hch (by decide)
  generalize hP2 : (match normalizeFullName fn with
      | some f2 => dinsert P1 "full_name" (.jstr f2)
      | none => P1) = P2 at hp2
  -- the chats list read back from P2 is a list of non-empty strings
  have hchats : ∀ x ∈ (match dgetD P2 "chats" (JValue.jarr []) with
      | JValue.jarr l => l
      | _ => ([] : List JValue)), ∃ cs, x = .jstr cs ∧ cs ≠ "" := by
    unfold dgetD
    cases hg : dget P2 "chats" with
    | none => simp
    | some v =>
      obtain ⟨_, _, hcl⟩ := hp2 ("chats", v) (dget_mem hg)
      obtain ⟨cl, hv, hall⟩ := hcl rfl
      simp only at hv
      simp only [Option.getD]
      rw [hv]
      simpa using hall
  have hchats' : ∀ x ∈ (if (match dgetD P2 "chats" (JValue.jarr []) with
        | JValue.jarr l => l
        | _ => ([] : List JValue)).contains (JValue.jstr (intStr c)) = true
      then (match dgetD P2 "chats" (JValue.jarr []) with
        | JValue.jarr l => l
        | _ => ([] : List JValue))
      else (match dgetD P2 "chats" (JValue.jarr []) with
        | JValue.jarr l => l
        | _ => ([] : List JValue)) ++ [JValue.jstr (intStr c)]),
      ∃ cs, x = .jstr cs ∧ cs ≠ "" := by
    split
    · exact hchats
    · intro x hx
      rcases List.mem_append.mp hx with hm1 | hm2
      · exact hchats x hm1
      · simp only [List.mem_singleton] at hm2
        rw [hm2]
        exact ⟨intStr c, rfl, intStr_ne_empty c⟩
  intro e he
  rcases mem_dinsert he with hh1 | ⟨_, hh2⟩
  · rcases mem_dsetdefault hh1 with hm1 | ⟨_, hm2⟩
    · exact h4 e hm1
    · rw [hm2]
      intro kv hkv
      simp at hkv
  · rw [hh2]
    intro kv hkv
    rcases mem_dinsert hkv with hk1 | ⟨hk, hv⟩
    · rcases mem_dinsert hk1 with hk2 | ⟨hk2a, hk2b⟩
      · rcases mem_dinsert hk2 with hk3 | ⟨hk3a, hk3b⟩
        · rcases mem_dinsert hk3 with hk4 | ⟨hk4a, hk4b⟩
          · rcases mem_dsetdefault hk4 with hk5 | ⟨hk5a, hk5b⟩
            · exact hp2 kv hk5
            · rw [hk5b]
              exact ⟨by simp, by simp, fun _ => ⟨[], rfl, by simp⟩⟩
          · rw [hk4b]
            refine ⟨by simp, by simp, fun _ => ⟨_, rfl, hchats'⟩⟩
        · rw [hk3b]
          refine ⟨by simp, by simp [intStr_ne_empty c], ?_⟩
          intro hch
          rw [hk3a] at hch
          exact absurd hch (by decide)
      · rw [hk2b]
        refine ⟨by simp, by simp [format_timestamp_ne_empty off now], ?_⟩
        intro hch
        rw [hk2a] at hch
        exact absurd hch (by decide)
    · rw [hv]
      refine ⟨by simp, by simp [pyIsoformat_ne_empty now], ?_⟩
      intro hch
      rw [hk] at hch
      exact absurd hch (by decide)

theorem reachable_WF : ∀ s, Reachable s → WF s := by
  intro s h
  induction h with
  | empty =>
    refine ⟨?_, ?_, ?_, ?_, ?_, ?_⟩ <;>
      · intro e he
        simp [StorageState.empty] at he
  | add_admin u un fn _ ih => exact WF_add_admin u un fn ih
  | remove_admin u _ ih => exact WF_remove_admin u ih
  | set_application_question q p lc _ ih => exact WF_set_application_question q p lc ih
  | add_application off now u fn un ans lc rs _ ih =>
    exact WF_add_application off now u fn un ans lc rs ih
  | pop_application u _ ih => exact WF_pop_application u ih
  | withdraw_application off now u _ ih => exact WF_withdraw_application off now u ih
  | mark_application_status off now u st note lc _ ih =>
    exact WF_mark_application_status off now u st note lc ih
  | add_xp off now c u a fn un _ ih => exact WF_add_xp off now c u a fn un ih
  | add_cup off now c t d p _ ih => exact WF_add_cup off now c t d p ih

theorem mapME_ok_of_all {α β : Type} (f : α → Except String β) (g : α → β)
    (l : List α) (h : ∀ x ∈ l, f x = .ok (g x)) : mapME f l = .ok (l.map g) := by
  induction l with
  | nil => rfl
  | cons x xs ih =>
    simp only [mapME, h x (List.mem_cons_self x xs), except_bind_ok]
    rw [ih (fun y hy => h y (List.mem_cons_of_mem x hy))]
    rfl

theorem parseResponse_toJ (r : ApplicationResponse) :
    parseResponse (.jobj (responseToJ r)) = .ok (some r) := rfl

theorem collectResponses_toJ (rs : List ApplicationResponse) :
    collectResponses (rs.map (fun r => .jobj (responseToJ r))) = .ok rs := by
  induction rs with
  | nil => rfl
  | cons r rest ih =>
    simp only [List.map_cons, collectResponses, parseResponse_toJ, except_bind_ok, ih]

theorem parseOptStr_of_dget {l : List (String × JValue)} {key : String}
    {v : Option String} (h : dget l key = some (optJ v)) :
    parseOptStr l key = .ok v := by
  unfold parseOptStr
  rw [h]
  cases v <;> rfl

theorem parseStrD_of_dget {l : List (String × JValue)} {key : String}
    {v : String} (h : dget l key = some (.jstr v)) :
    parseStrD l key = .ok v := by
  unfold parseStrD
  rw [h]

theorem parseApplicationEntry_toJ (off : Int) (k : Int) (a : Application)
    (hiso : isoParse a.created_at.data = none) :
    parseApplicationEntry off (intStr k) (.jobj (applicationToJ a)) = .ok (k, a) := by
  have hresp : dgetD (applicationToJ a) "responses" (.jarr []) =
      .jarr (a.responses.map (fun r => .jobj (responseToJ r))) := rfl
  have huid : dget (applicationToJ a) "user_id" = some (.jint a.user_id) := rfl
  have hfn := parseStrD_of_dget (show dget (applicationToJ a) "full_name" =
    some (.jstr a.full_name) from rfl)
  have hun := parseOptStr_of_dget (show dget (applicationToJ a) "username" =
    some (optJ a.username) from rfl)
  have han := parseOptStr_of_dget (show dget (applicationToJ a) "answer" =
    some (optJ a.answer) from rfl)
  have hca := parseStrD_of_dget (show dget (applicationToJ a) "created_at" =
    some (.jstr a.created_at) from rfl)
  have hlc := parseOptStr_of_dget (show dget (applicationToJ a) "language_code" =
    some (optJ a.language_code) from rfl)
  simp only [parseApplicationEntry, hresp, huid, hfn, hun, han, hca, hlc,
    collectResponses_toJ, parseIntKey_intStr, except_bind_ok,
    normalize_of_isoParse_none hiso]

theorem mapME_map_ok {α β γ : Type} (f : β → Except String γ) (m : α → β)
    (g : α → γ) (l : List α) (h : ∀ x ∈ l, f (m x) = .ok (g x)) :
    mapME f (l.map m) = .ok (l.map g) := by
  induction l with
  | nil => rfl
  | cons x xs ih =>
    simp only [List.map_cons, mapME, h x (List.mem_cons_self x xs), except_bind_ok,
      ih (fun y hy => h y (List.mem_cons_of_mem x hy))]

theorem parseApplications_toJ (off : Int) {l : List (Int × Application)}
    (h : WFApplications l) :
    parseApplications off (.jobj (toDictApplications l)) = .ok l := by
  simp only [parseApplications, toDictApplications]
  rw [mapME_map_ok _ _ (fun e => e) l
    (fun e he => parseApplicationEntry_toJ off e.1 e.2 (h e he))]
  simp

theorem parseHistoryEntry_toJ (off : Int) (k : Int) (e : ApplicationHistoryEntry)
    (hiso : isoParse e.updated_at.data = none) :
    parseHistoryEntry off (intStr k) (.jobj (historyEntryToJ e)) = .ok (k, e) := by
  have hst := parseStrD_of_dget (show dget (historyEntryToJ e) "status" =
    some (.jstr e.status) from rfl)
  have hup := parseStrD_of_dget (show dget (historyEntryToJ e) "updated_at" =
    some (.jstr e.updated_at) from rfl)
  have hnote := parseOptStr_of_dget (show dget (historyEntryToJ e) "note" =
    some (optJ e.note) from rfl)
  have hlc := parseOptStr_of_dget (show dget (historyEntryToJ e) "language_code" =
    some (optJ e.language_code) from rfl)
  simp only [parseHistoryEntry, hst, hup, hnote, hlc, parseIntKey_intStr,
    except_bind_ok, normalize_of_isoParse_none hiso]

theorem parseHistory_toJ (off : Int) {l : List (Int × ApplicationHistoryEntry)}
    (h : WFHistory l) :
    parseHistory off (.jobj (toDictHistory l)) = .ok l := by
  simp only [parseHistory, toDictHistory]
  rw [mapME_map_ok _ _ (fun e => e) l
    (fun e he => parseHistoryEntry_toJ off e.1 e.2 (h e he))]
  simp

theorem parseAdmins_toJ (l : List Int) :
    parseAdmins (.jarr (l.map JValue.jint)) = .ok l := by
  simp only [parseAdmins]
  induction l with
  | nil => rfl
  | cons x xs ih => simp only [List.map_cons, mapME, except_bind_ok, ih]

theorem adminProfile_filterMap {prof : List (String × Option String)}
    (h : ∀ kv ∈ prof, ∃ s2, kv.2 = some s2 ∧ s2 ≠ "") :
    (adminProfileToJ prof).filterMap (fun kv =>
      match kv.2 with
      | .jstr s => if s ≠ "" then some (kv.1, some s) else none
      | _ => none) = prof := by
  induction prof with
  | nil => rfl
  | cons hd tl ih =>
    obtain ⟨s2, hs2, hne⟩ := h hd (List.mem_cons_self _ _)
    have hih := ih (fun kv hkv => h kv (List.mem_cons_of_mem _ hkv))
    obtain ⟨k, v⟩ := hd
    simp only at hs2
    subst hs2
    simp only [adminProfileToJ, List.filterMap_cons, Option.map_some, Option.map_some,
      Option.map, List.filterMap_cons, if_pos hne]
    simp only [adminProfileToJ, Option.map] at hih
    rw [hih]

theorem parseAdminProfile_toJ {prof : List (String × Option String)}
    (h : ∀ kv ∈ prof, ∃ s2, kv.2 = some s2 ∧ s2 ≠ "") :
    parseAdminProfile (.jobj (adminProfileToJ prof)) = .ok prof := by
  cases prof with
  | nil => rfl
  | cons hd tl =>
    obtain ⟨s2, hs2, hne⟩ := h hd (List.mem_cons_self _ _)
    unfold parseAdminProfile
    have htr : (JValue.jobj (adminProfileToJ (hd :: tl))).truthy = true := by
      simp only [adminProfileToJ, List.filterMap_cons, hs2, Option.map_some]
      simp [JValue.truthy]
    rw [htr]
    simp only [Bool.not_true, Bool.false_eq_true, if_false]
    rw [adminProfile_filterMap h]

theorem parseAdminProfiles_toJ {l : List (Int × List (String × Option String))}
    (h : WFAdminProfiles l) :
    parseAdminProfiles (.jobj (toDictAdminProfiles l)) = .ok l := by
  simp only [parseAdminProfiles, toDictAdminProfiles]
  rw [mapME_map_ok _ _ (fun e => e) l (fun e he => by
    simp only [parseIntKey_intStr, except_bind_ok, parseAdminProfile_toJ (h e he)])]
  simp

theorem parseXpChat_toJ (scores : List (String × Int)) :
    parseXpChat (.jobj (scores.map (fun kv => (kv.1, JValue.jint kv.2)))) =
      .ok scores := by
  simp only [parseXpChat]
  induction scores with
  | nil => rfl
  | cons x xs ih =>
    obtain ⟨k, n⟩ := x
    simp only [List.map_cons, mapME, except_bind_ok, ih]

theorem parseXp_toJ (l : List (String × List (String × Int))) :
    parseXp (.jobj (toDictXp l)) = .ok l := by
  simp only [parseXp, toDictXp]
  rw [mapME_map_ok _ _ (fun e => e) l (fun e _ => by
    simp only [parseXpChat_toJ, except_bind_ok])]
  simp

theorem xpProfileToJ_eq_self {p : List (String × JValue)} (h : WFXpProfile p) :
    xpProfileToJ p = p := by
  unfold xpProfileToJ
  rw [List.filter_eq_self]
  intro kv hkv
  obtain ⟨hn, hs, _⟩ := h kv hkv
  simp [hn, hs]

theorem xpProfileOne_toJ {p : List (String × JValue)} (h : WFXpProfile p) :
    xpProfileOne (xpProfileToJ p) = .ok (canonXpProfile p) := by
  rw [xpProfileToJ_eq_self h]
  have hho : ∃ cl2, dgetD p "chats" (.jarr []) = .jarr cl2 := by
    unfold dgetD
    cases hg : dget p "chats" with
    | none => exact ⟨[], rfl⟩
    | some v =>
      obtain ⟨_, _, hcl⟩ := h ("chats", v) (dget_mem hg)
      obtain ⟨cl, hv, _⟩ := hcl rfl
      simp only at hv
      exact ⟨cl, by simp [Option.getD, hv]⟩
  obtain ⟨cl2, hcl2⟩ := hho
  unfold xpProfileOne xpProfileChats canonXpProfile
  rw [hcl2]
  rfl

theorem parseXpProfiles_toJ {l : List (String × List (String × JValue))}
    (h : WFXpProfiles l) :
    parseXpProfiles (.jobj (toDictXpProfiles l)) =
      .ok (l.map (fun e => (e.1, canonXpProfile e.2))) := by
  simp only [parseXpProfiles, toDictXpProfiles]
  revert h
  induction l with
  | nil => intro _; rfl
  | cons x xs ih =>
    intro h2
    simp only [List.map_cons, List.filterMap_cons, mapME, except_bind_ok,
      xpProfileOne_toJ (h2 x (List.mem_cons_self _ _)),
      ih (fun e he => h2 e (List.mem_cons_of_mem _ he))]

theorem parseCup_toJ (off : Int) {cup : List (String × JValue)}
    (h : ∃ cs, dget cup "created_at" = some (.jstr cs) ∧ isoParse cs.data = none) :
    parseCup off (.jobj cup) = .ok cup := by
  obtain ⟨cs, hget, hiso⟩ := h
  simp only [parseCup, dgetD, hget, Option.getD]
  rw [normalize_of_isoParse_none hiso, dinsert_self_of_dget hget]

theorem parseCups_toJ (off : Int) {l : List (String × List (List (String × JValue)))}
    (h : WFCups l) : parseCups off (.jobj (toDictCups l)) = .ok l := by
  simp only [parseCups, toDictCups]
  rw [mapME_map_ok _ _ (fun e => e) l (fun e he => by
    dsimp only
    rw [mapME_map_ok _ _ (fun cup => cup) e.2
      (fun cup hcup => parseCup_toJ off (h e he cup hcup))]
    simp [except_bind_ok])]
  simp

theorem questionBucket_filterMap {b : List (String × String)}
    (h : ∀ kv ∈ b, pyStrip kv.2 ≠ "") :
    ((b.map (fun kv => (kv.1, JValue.jstr kv.2))).filterMap (fun kv =>
      match kv.2 with
      | .jstr p => if pyStrip p ≠ "" then some (kv.1, p) else none
      | _ => none)) = b := by
  induction b with
  | nil => rfl
  | cons hd tl ih =>
    simp only [List.map_cons, List.filterMap_cons]
    rw [if_pos (h hd (List.mem_cons_self _ _))]
    rw [ih (fun kv hkv => h kv (List.mem_cons_of_mem _ hkv))]

theorem parseQuestionBucket_toJ {b : List (String × String)}
    (h : ∀ kv ∈ b, pyStrip kv.2 ≠ "") :
    parseQuestionBucket (.jobj (b.map (fun kv => (kv.1, JValue.jstr kv.2)))) =
      .ok b := by
  cases b with
  | nil => rfl
  | cons hd tl =>
    unfold parseQuestionBucket
    have htr : (JValue.jobj ((hd :: tl).map (fun kv =>
        (kv.1, JValue.jstr kv.2)))).truthy = true := by
      simp [JValue.truthy]
    rw [htr]
    simp only [Bool.not_true, Bool.false_eq_true, if_false]
    rw [questionBucket_filterMap h]

theorem parseQuestions_toJ {l : List (String × List (String × String))}
    (h : WFQuestions l) : parseQuestions (.jobj (toDictQuestions l)) = .ok l := by
  simp only [parseQuestions, toDictQuestions]
  rw [mapME_map_ok _ _ (fun e => e) l (fun e he => by
    simp only [parseQuestionBucket_toJ (h e he), except_bind_ok])]
  simp

/-- The state `add_xp(100, 1, 5, full_name="Hero", username="@hero")` builds
from empty: its xp profile holds the extra `updated_at_iso` key that
`from_dict` drops. -/
def exXpState : StorageState :=
  (Storage.add_xp 0 exInstant 100 1 5 (some "Hero") (some "@hero")
    StorageState.empty).2

/-- C1 (amended): for every state reachable through the public mutation API,
`from_dict(to_dict(s))` succeeds and reproduces every field exactly — admins,
admin profiles, applications with nested responses, history, XP ledgers,
cups, question overrides — except the xp profiles, which are replaced by
their canonical five-key form (`username`, `full_name`, `updated_at`,
`last_chat`, `chats`, absent keys materialized as `null`): in particular the
`updated_at_iso` key that `add_xp` writes is dropped, so the round trip is
not the identity on that field (see the counterexample). -/
theorem from_dict_round_trip (off : Int) {s : StorageState} (h : Reachable s) :
    StorageState.from_dict off (StorageState.to_dict s) =
      .ok (canonicalizeState s) := by
  obtain ⟨h1, h2, h3, h4, h5, h6⟩ := reachable_WF s h
  have hstep : StorageState.from_dict off (StorageState.to_dict s) =
      (do
        let applications ← parseApplications off
          (.jobj (toDictApplications s.applications))
        let history ← parseHistory off (.jobj (toDictHistory s.application_history))
        let admins ← parseAdmins (.jarr (s.admins.map JValue.jint))
        let adminProfiles ← parseAdminProfiles
          (.jobj (toDictAdminProfiles s.admin_profiles))
        let xp ← parseXp (.jobj (toDictXp s.xp))
        let xpProfiles ← parseXpProfiles (.jobj (toDictXpProfiles s.xp_profiles))
        let cups ← parseCups off (.jobj (toDictCups s.cups))
        let questions ← parseQuestions (.jobj (toDictQuestions s.application_questions))
        Except.ok { admins := admins, admin_profiles := adminProfiles,
                    applications := applications, application_history := history,
                    xp := xp, xp_profiles := xpProfiles, cups := cups,
                    application_questions := questions }) := rfl
  rw [hstep, parseApplications_toJ off h2, parseHistory_toJ off h3, parseAdmins_toJ,
    parseAdminProfiles_toJ h1, parseXp_toJ, parseXpProfiles_toJ h4,
    parseCups_toJ off h5, parseQuestions_toJ h6]
  simp only [except_bind_ok]
  rfl

/-- Witness for C1 at the application state: the round trip succeeds and
yields the canonical form. -/
theorem from_dict_round_trip_witness :
    Reachable exAppState ∧
    StorageState.from_dict 0 (StorageState.to_dict exAppState) =
      .ok (canonicalizeState exAppState) :=
  ⟨Reachable.add_application 0 exInstant 7 "User" none none none []
      Reachable.empty,
   from_dict_round_trip 0
     (Reachable.add_application 0 exInstant 7 "User" none none none []
       Reachable.empty)⟩

/-- C1 counterexample to the claim as stated: after a single `add_xp`, the
reachable state stores an `updated_at_iso` key in the xp profile, but
`from_dict(to_dict(s))` rebuilds the profile from the five canonical keys
only, so the result differs from `s` — the round trip is not observationally
equivalent on the ISO update timestamp written by `add_xp`. -/
theorem round_trip_counterexample :
    Reachable exXpState ∧
    (dget (dgetD exXpState.xp_profiles "1" []) "updated_at_iso").isSome = true ∧
    StorageState.from_dict 0 (StorageState.to_dict exXpState) =
      .ok (canonicalizeState exXpState) ∧
    dget (dgetD (canonicalizeState exXpState).xp_profiles "1" [])
      "updated_at_iso" = none ∧
    StorageState.from_dict 0 (StorageState.to_dict exXpState) ≠ .ok exXpState :=
  ⟨Reachable.add_xp 0 exInstant 100 1 5 (some "Hero") (some "@hero")
      Reachable.empty,
   by decide, by decide, by decide, by decide⟩
